import Mathlib

/-!
# LaunchAPPL / MiniVMac launcher: disk-image assembly

A shallow embedding of `LaunchAPPL/Client/MiniVMac.cc` and the properties of
its image normaliser, boot-block handling, version probe, file copy, alias
record and output collection.
-/

namespace MiniVMacLauncher

/-! ## Bytes, host files and input streams -/

abbrev Byte := Fin 256
abbrev Bytes := List Byte
abbrev Path := String

/-- The host file system as seen by `fs::ifstream` / `fs::ofstream`:
the contents of every existing regular file. -/
abbrev HostFS := Path → Option Bytes

/-- Replace (or create) the file at `p`. -/
def HostFS.put (h : HostFS) (p : Path) (d : Bytes) : HostFS :=
  fun q => if q = p then some d else h q

/-- A `std::istream` over a file: its bytes, the get position and the
fail state (`failbit`, set by a failed open or a failed read and never
cleared by this program). -/
structure IStream where
  data : Bytes
  pos : Nat
  failed : Bool
deriving DecidableEq, Repr

namespace IStream

/-- `fs::ifstream in(path)`: a file that cannot be opened leaves the stream
in the fail state. -/
def ifstream (h : HostFS) (p : Path) : IStream :=
  match h p with
  | some d => { data := d, pos := 0, failed := false }
  | none => { data := [], pos := 0, failed := true }

/-- `in.seekg(n)`: no effect on a failed stream. -/
def seekg (s : IStream) (n : Nat) : IStream :=
  if s.failed then s else { s with pos := n }

/-- `in.seekg(0, std::ios::end)`. -/
def seekgEnd (s : IStream) : IStream :=
  if s.failed then s else { s with pos := s.data.length }

/-- `in.get()`: the next byte, or `EOF` (here `none`) and the fail state. -/
def get (s : IStream) : Option Byte × IStream :=
  if s.failed then (none, s)
  else
    match s.data[s.pos]? with
    | some b => (some b, { s with pos := s.pos + 1 })
    | none => (none, { s with failed := true })

/-- `in.tellg()`: the position, or `-1` on a failed stream. -/
def tellg (s : IStream) : Int :=
  if s.failed then -1 else (s.pos : Int)

/-- `in.read(buf, n)`: the bytes stored in `buf` (`in.gcount()` is their
number); a short read sets the fail state. -/
def read (s : IStream) (n : Nat) : Bytes × IStream :=
  if s.failed then ([], s)
  else
    let chunk := (s.data.drop s.pos).take n
    (chunk, { s with pos := s.pos + chunk.length, failed := decide (chunk.length < n) })

end IStream

/-- Modelled from the spec: `byte(std::istream&)` of `BinaryIO.h`, which is
not part of the sources at hand; it yields the next byte as an `int`, and
`EOF & 0xFF = 0xFF` when the read fails. -/
def byte (s : IStream) : Nat × IStream :=
  let r := s.get
  (match r.1 with
   | some b => b.val
   | none => 0xFF, r.2)

/-- Modelled from the spec: `word(std::istream&)` of `BinaryIO.h`, the
big-endian 2-byte field reader. -/
def word (s : IStream) : Nat × IStream :=
  let a := byte s
  let b := byte a.2
  (a.1 * 256 + b.1, b.2)

/-- Modelled from the spec: `longword(std::istream&)` of `BinaryIO.h`, the
big-endian 4-byte field reader. -/
def longword (s : IStream) : Nat × IStream :=
  let a := word s
  let b := word a.2
  (a.1 * 65536 + b.1, b.2)

/-- Conversion of a `std::streamoff` to `uint32_t`. -/
def toU32 (i : Int) : Nat := (i % 4294967296).toNat

/-! ## `MiniVMacLauncher::ConvertImage` -/

/-- The copy loop
`while(in.read(buf, sizeof(buf)), in.gcount() > 0) out.write(buf, in.gcount());`
with `fuel` bounding the number of iterations. -/
def copyLoop : Nat → IStream → Bytes → Bytes
  | 0, _, out => out
  | fuel + 1, s, out =>
    let r := s.read 4096
    if r.1.length > 0 then copyLoop fuel r.2 (out ++ r.1) else out

/-- The values `ConvertImage` reads before its test:
`(diskCopyLength, diskCopySig, diskCopyHFSSig, actualSize, in)`. -/
def probeImage (h : HostFS) (path : Path) : Nat × Nat × Nat × Nat × IStream :=
  let in0 := IStream.ifstream h path
  let in1 := in0.seekg 0x40
  let r1 := longword in1
  let diskCopyLength := r1.1 % 4294967296
  let in2 := r1.2.seekg 0x52
  let r2 := word in2
  let diskCopySig := r2.1 % 65536
  let in3 := r2.2.seekg (0x54 + 1024)
  let r3 := word in3
  let diskCopyHFSSig := r3.1 % 65536
  let in4 := r3.2.seekgEnd
  let actualSize := toU32 in4.tellg
  (diskCopyLength, diskCopySig, diskCopyHFSSig, actualSize, in4)

/-- The test of `ConvertImage` (lines 142-143), in 32-bit unsigned
arithmetic. -/
def isDiskCopy (h : HostFS) (path : Path) : Bool :=
  let p := probeImage h path
  decide (p.2.1 = 0x0100 ∧ p.2.2.2.1 = (p.1 + 0x54) % 4294967296
    ∧ p.1 % 512 = 0 ∧ p.2.2.1 = 0x4244)

/-- `MiniVMacLauncher::ConvertImage`.  `outPath` is the value of
`tempDir / fs::unique_path()`, a fresh name.  The result is the returned
path and the host file system afterwards. -/
def ConvertImage (h : HostFS) (outPath : Path) (path : Path) : Path × HostFS :=
  if isDiskCopy h path then
    let s := (probeImage h path).2.2.2.2
    let in5 := s.seekg 0x54
    let out := copyLoop (in5.data.length + 1) in5 []
    (outPath, h.put outPath out)
  else
    (path, h)

/-! ## External collaborators -/

/-- A string literal as the bytes of its characters. -/
def lit (s : String) : Bytes := s.toList.map (fun c => Fin.ofNat c.toNat)

/-- `s.c_str()` as a callee that takes a `const char *` reads it: the bytes
of the `std::string` before its first zero byte. -/
def c_str (s : Bytes) : Bytes := s.takeWhile (fun b => b != 0)

/-- Modelled from the spec: a catalog entry of the volume access provider
(`hfs.h` is not part of the sources at hand): a dual-fork file, or a folder,
with the metadata `stat` reports. -/
structure HfsEntry where
  name : Bytes
  isDir : Bool
  cnid : Nat
  parid : Nat
  crdate : Nat
  type : Bytes
  creator : Bytes
  dfork : Bytes
  rfork : Bytes
deriving DecidableEq, Repr

/-- Modelled from the spec: a volume of the volume access provider: its name
and creation date, the current and the blessed folder, and its catalog. -/
structure HfsVol where
  name : Bytes
  crdate : Nat
  cwd : Nat
  blessed : Nat
  nextCnid : Nat
  entries : List HfsEntry
deriving DecidableEq, Repr

/-- Modelled from the spec: `Resource` of `ResourceFile.h`, a
(type, id, raw bytes) triple. -/
structure Resource where
  type : Bytes
  id : Int
  data : Bytes
deriving DecidableEq, Repr

/-- The fixed-layout record `AliasData` (lines 37-64) with the default member
initialisers of the source. -/
structure AliasData where
  userType : Bytes := [0, 0, 0, 0]
  size : Nat := 0
  version : Int := 2
  type : Int := 0
  volumeNameSize : Nat := 0
  volumeName : Bytes := []
  volumeCreationDate : Nat := 0
  volumeSig : Nat := 0x4244
  volumeType : Int := 5
  parentDirID : Int := 0
  fileNameSize : Nat := 0
  fileName : Bytes := []
  fileNum : Int := 0
  fileCreationDate : Nat := 0
  typeCode : Bytes := []
  creatorCode : Bytes := []
  nlvlFrom : Int := 0
  nlvlTo : Int := 0
  volumeAttr : Nat := 0
  volumeFSID : Int := 0
  unused : Int := 0
  unused1 : Nat := 0
  unused2 : Nat := 0
deriving DecidableEq, Repr

/-- Modelled from the spec: what the program takes from its external
collaborators and its platform, none of which is in the sources at hand.
`mount` is the volume the provider finds in the bytes of an image file,
`format` and `flush` are the effect of formatting an image and of
unmounting a read-write volume on the bytes of its image, `now` is the
provider's clock, `resDecode` and `resEncode` are the resource-fork codec,
`vnameCap` and `fnameCap` are the sizes of the `name` buffers of `hfsvolent`
and `hfsdirent`, `beyond` is the memory that follows such a buffer,
`charSigned` tells whether `char` is a signed type, and `aliasSize` and
`aliasBytes` are `sizeof(AliasData)` and the in-memory representation of an
`AliasData`. -/
structure Extern where
  mount : Bytes → Option HfsVol
  format : Bytes → Bytes → Bytes
  flush : HfsVol → Bytes → Bytes
  now : Nat
  resDecode : Bytes → List Resource
  resEncode : List Resource → Bytes
  vnameCap : Nat
  fnameCap : Nat
  beyond : Nat → Byte
  charSigned : Bool
  aliasSize : Nat
  aliasBytes : AliasData → Bytes

/-! ## The volume access provider -/

/-- A mounted volume handle (`hfsvol *`): the image it was mounted from, the
mode, and the current state of the volume. -/
structure Mounted where
  image : Path
  rw : Bool
  v : HfsVol
deriving DecidableEq, Repr

/-- An open file handle (`hfsfile *`): the entry it names, the selected fork
and the position in it. -/
structure hfsfile where
  dir : Nat
  name : Bytes
  fork : Nat
  pos : Nat
deriving DecidableEq, Repr

/-- Modelled from the spec: name lookup in the current folder. -/
def HfsVol.lookup (v : HfsVol) (name : Bytes) : Option HfsEntry :=
  v.entries.find? (fun e => e.parid == v.cwd && e.name == name)

/-- Apply `f` to the first element that satisfies `p`. -/
def modifyFirst {α : Type} (p : α → Bool) (f : α → α) : List α → List α
  | [] => []
  | x :: xs => if p x then f x :: xs else x :: modifyFirst p f xs

/-- Modelled from the spec: `stat(handle, name)`, which fails if the name is
absent (and on a null handle). -/
def hfs_stat (m : Option Mounted) (name : Bytes) : Option HfsEntry :=
  match m with
  | some m => m.v.lookup name
  | none => none

/-- Modelled from the spec: `open(handle, name)`, which fails if the name is
absent or names a folder; the handle starts on the data fork. -/
def hfs_open (v : HfsVol) (name : Bytes) : Option hfsfile :=
  match v.lookup name with
  | some e => if e.isDir then none else some { dir := v.cwd, name := name, fork := 0, pos := 0 }
  | none => none

/-- Modelled from the spec: `create(handle, name, type, creator)`: a new
file with two empty forks in the current folder, taking the place of any
entry of that name there. -/
def hfs_create (now : Nat) (v : HfsVol) (name type creator : Bytes) : HfsVol × hfsfile :=
  ({ v with
      nextCnid := v.nextCnid + 1
      entries :=
        { name := name, isDir := false, cnid := v.nextCnid, parid := v.cwd, crdate := now,
          type := type, creator := creator, dfork := [], rfork := [] }
        :: v.entries.filter (fun e => !(e.parid == v.cwd && e.name == name)) },
   { dir := v.cwd, name := name, fork := 0, pos := 0 })

/-- Modelled from the spec: `selectFork(fileHandle, 0|1)`; the position
returns to the start of the fork. -/
def hfs_setfork (f : hfsfile) (fork : Nat) : hfsfile :=
  { f with fork := fork, pos := 0 }

/-- The fork of an entry a handle has selected. -/
def HfsEntry.forkData (e : HfsEntry) (fork : Nat) : Bytes :=
  if fork = 0 then e.dfork else e.rfork

/-- Modelled from the spec: `read(fileHandle, buffer, n)`: the bytes read,
at most `n` and at most what the fork still holds, and the advanced
handle. -/
def hfs_read (v : HfsVol) (f : hfsfile) (n : Nat) : Bytes × hfsfile :=
  match v.entries.find? (fun e => e.parid == f.dir && e.name == f.name) with
  | some e =>
    let got := ((e.forkData f.fork).drop f.pos).take n
    (got, { f with pos := f.pos + got.length })
  | none => ([], f)

/-- Overwrite `old` with `buf` from position `pos` on. -/
def overwrite (old : Bytes) (pos : Nat) (buf : Bytes) : Bytes :=
  old.take pos ++ buf ++ old.drop (pos + buf.length)

/-- Modelled from the spec: `write(fileHandle, buffer, n)` with the `n`
bytes `buf`. -/
def hfs_write (v : HfsVol) (f : hfsfile) (buf : Bytes) : HfsVol × hfsfile :=
  ({ v with
      entries := modifyFirst (fun e => e.parid == f.dir && e.name == f.name)
        (fun e =>
          if f.fork = 0 then { e with dfork := overwrite e.dfork f.pos buf }
          else { e with rfork := overwrite e.rfork f.pos buf })
        v.entries },
   { f with pos := f.pos + buf.length })

/-- Modelled from the spec: `mkdir`: a new folder in the current folder. -/
def hfs_mkdir (now : Nat) (v : HfsVol) (name : Bytes) : HfsVol :=
  match v.lookup name with
  | some _ => v
  | none =>
    { v with
        nextCnid := v.nextCnid + 1
        entries :=
          { name := name, isDir := true, cnid := v.nextCnid, parid := v.cwd, crdate := now,
            type := [], creator := [], dfork := [], rfork := [] } :: v.entries }

/-- Modelled from the spec: `rename/move`: when `dst` names a folder the
entry `src` moves into it, otherwise it takes the name `dst`. -/
def hfs_rename (v : HfsVol) (src dst : Bytes) : HfsVol :=
  match v.lookup dst with
  | some d =>
    if d.isDir then
      { v with
          entries := modifyFirst (fun e => e.parid == v.cwd && e.name == src)
            (fun e => { e with parid := d.cnid }) v.entries }
    else v
  | none =>
    { v with
        entries := modifyFirst (fun e => e.parid == v.cwd && e.name == src)
          (fun e => { e with name := dst }) v.entries }

/-! ## Program state and outcomes -/

/-- The `std::runtime_error`s the launcher throws. -/
inductive Error where
  | notBootable (image : Path)
  | notConfigured (optionsKey : String) (major : Nat)
  | fileNotFound (fn : Bytes)
  | cannotOpen (image : Path)
deriving DecidableEq, Repr

/-- How a run can end other than by returning: an exception that propagates
to the caller, a failed `assert`, or a step whose behaviour the source
leaves undefined (null handle, uninitialised read, index out of range). -/
inductive Failure where
  | thrown (e : Error)
  | aborted
  | undefined
deriving DecidableEq, Repr

/-- The calls a run makes, latest first in `World.log`. -/
inductive Event where
  | optionCount (key : String)
  | mount (image : Path) (rw : Bool)
  | umount (image : Path)
  | format (image : Path)
  | fileCreate (path : Path) (size : Nat)
  | fileWrite (path : Path) (bytes : Bytes)
  | create (name type creator : Bytes)
  | makeAlias (dest src : Bytes)
  | mkdir (name : Bytes)
  | rename (src dst : Bytes)
  | symlink (target link : Path)
  | copy (src dst : Path)
deriving DecidableEq, Repr

/-- The state a launcher acts on: the host files, the members `sysvol` and
`vol` (`none` is `NULL`), the bytes sent to `std::cout`, and the calls made
so far. -/
structure World where
  host : HostFS
  sysvol : Option Mounted
  vol : Option Mounted
  cout : Bytes
  log : List Event

/-- The outcome of a step together with the state it leaves. -/
inductive Res (α : Type) where
  | ok (a : α) (w : World)
  | fail (f : Failure) (w : World)

/-- The state an outcome leaves. -/
def Res.world {α : Type} : Res α → World
  | .ok _ w => w
  | .fail _ w => w

/-- Whether a step returned normally. -/
def Res.isOk {α : Type} : Res α → Bool
  | .ok _ _ => true
  | .fail _ _ => false

/-- The failure of an outcome, if any. -/
def Res.failure {α : Type} : Res α → Option Failure
  | .ok _ _ => none
  | .fail f _ => some f

/-- Steps of the program. -/
abbrev M (α : Type) := World → Res α

/-- Sequencing: a failure ends the run with the state reached. -/
def M.bind {α β : Type} (m : M α) (f : α → M β) : M β := fun w =>
  match m w with
  | .ok a w1 => f a w1
  | .fail e w1 => .fail e w1

/-- A step that returns `a`. -/
def M.pure {α : Type} (a : α) : M α := fun w => .ok a w

/-- A step that only records a call. -/
def emit (e : Event) : M Unit := fun w => .ok () { w with log := e :: w.log }

/-- `throw std::runtime_error(...)`. -/
def raise {α : Type} (e : Error) : M α := fun w => .fail (.thrown e) w

/-- Modelled from the spec: `mount(path, mode)` as the step
`hfs_mount(path, 0, mode)`; it yields no handle when the file is missing or
holds no volume. -/
def hfs_mount (E : Extern) (image : Path) (rw : Bool) : M (Option Mounted) := fun w =>
  .ok (match w.host image with
       | some b => (E.mount b).map (fun v => { image := image, rw := rw, v := v })
       | none => none)
    { w with log := .mount image rw :: w.log }

/-- Modelled from the spec: `unmount(handle)` as the step
`hfs_umount(handle)`; a read-write volume is flushed to its image. -/
def hfs_umount (E : Extern) (m : Mounted) : M Unit := fun w =>
  .ok ()
    { w with
        host := if m.rw then
                  (match w.host m.image with
                   | some b => w.host.put m.image (E.flush m.v b)
                   | none => w.host)
                else w.host
        log := .umount m.image :: w.log }

/-- `ConvertImage` as a step on the host files. -/
def convertImage (outPath path : Path) : M Path := fun w =>
  let r := ConvertImage w.host outPath path
  .ok r.1 { w with host := r.2 }

/-! ## `CopySystemFile`, `GetSystemVersion`, `MakeAlias`, `DumpOutput` -/

/-- `MiniVMacLauncher::CopySystemFile` (lines 369-393). -/
def CopySystemFile (E : Extern) (fn : Bytes) (required : Bool) : M Unit := fun w =>
  match hfs_stat w.sysvol (c_str fn) with
  | none =>
    if required then .fail (.thrown (.fileNotFound fn)) w else .ok () w
  | some fileent =>
    match w.sysvol, w.vol with
    | some sys, some tgt =>
      match hfs_open sys.v (c_str fn) with
      | none => .fail .undefined w
      | some in0 =>
        let c := hfs_create E.now tgt.v (c_str fn) fileent.type fileent.creator
        let dsize := fileent.dfork.length
        let rsize := fileent.rfork.length
        let buffer0 : Bytes := List.replicate (max dsize rsize) 0
        let in1 := hfs_setfork in0 0
        let out1 := hfs_setfork c.2 0
        let r1 := hfs_read sys.v in1 dsize
        let buffer1 := overwrite buffer0 0 r1.1
        let w1 := hfs_write c.1 out1 (buffer1.take dsize)
        let in2 := hfs_setfork r1.2 1
        let out2 := hfs_setfork w1.2 1
        let r2 := hfs_read sys.v in2 rsize
        let buffer2 := overwrite buffer1 0 r2.1
        let w2 := hfs_write w1.1 out2 (buffer2.take rsize)
        .ok () { w with
                  vol := some { tgt with v := w2.1 }
                  log := .create (c_str fn) fileent.type fileent.creator :: w.log }
    | _, _ => .fail .undefined w

/-- `s[i]` on a `std::string`: the character, the terminator at `i = size()`,
and nothing defined beyond. -/
def strAt (s : Bytes) (i : Nat) : Option Byte :=
  if i < s.length then s[i]? else if i = s.length then some 0 else none

/-- The value of a `char` holding byte `b`, as an `int`. -/
def charToInt (signed : Bool) (b : Byte) : Int :=
  if signed && decide (128 ≤ b.val) then (b.val : Int) - 256 else (b.val : Int)

/-- Conversion of an `int` to `uint16_t`. -/
def toU16 (i : Int) : Nat := (i % 65536).toNat

/-- The expression `(uint16_t)c0 << 8 | c1` returned as a `uint16_t`
(line 441): the cast applies to `c0` only, the shift and the bitwise or are
done on `int`, here on the 32-bit two's complement representation. -/
def versionWord (signed : Bool) (c0 c1 : Byte) : Nat :=
  ((toU16 (charToInt signed c0) * 256) % 4294967296 ||| toU32 (charToInt signed c1)) % 65536

/-- `systemRes.resources[ResRef('vers', 1)]`: the resource, or a
default-constructed one. -/
def findResource (rs : List Resource) (type : Bytes) (id : Int) : Resource :=
  match rs.find? (fun r => r.type == type && r.id == id) with
  | some r => r
  | none => { type := [], id := 0, data := [] }

/-- `MiniVMacLauncher::GetSystemVersion` (lines 429-442). -/
def GetSystemVersion (E : Extern) (systemFileName : Bytes) : M Nat := fun w =>
  match w.sysvol with
  | none => .fail .undefined w
  | some sys =>
    match hfs_stat w.sysvol (c_str systemFileName),
      hfs_open sys.v (c_str systemFileName) with
    | some fileent, some system =>
      let rsize := fileent.rfork.length
      let buffer0 : Bytes := List.replicate rsize 0
      let system1 := hfs_setfork system 1
      let r := hfs_read sys.v system1 rsize
      let buffer := overwrite buffer0 0 r.1
      let systemRes := E.resDecode buffer
      let vers := findResource systemRes (lit "vers") 1
      match strAt vers.data 0, strAt vers.data 1 with
      | some c0, some c1 => .ok (versionWord E.charSigned c0 c1) w
      | _, _ => .fail .undefined w
    | _, _ => .fail .undefined w

/-- Modelled from the spec: the `name` buffer of an `hfsvolent` or `hfsdirent`
(`hfs.h`), `cap` bytes that hold `name` as a C string, zero-filled. -/
def cbuf (cap : Nat) (name : Bytes) : Bytes :=
  (name ++ List.replicate cap 0).take cap

/-- `strlen(buf)`. -/
def strlen (buf : Bytes) : Nat := (buf.takeWhile (fun b => b != 0)).length

/-- The `n` bytes `memcpy(dst, buf, n)` stores: those of `buf`, then those
of the memory behind it. -/
def memcpyFrom (E : Extern) (buf : Bytes) (n : Nat) : Bytes :=
  (List.range n).map (fun i => (buf[i]?).getD (E.beyond (i - buf.length)))

/-- Whether filling the name slots reads past one of the two name buffers:
a `memcpy` longer than the buffer, or a `strlen` that finds no terminator
in it. -/
def aliasOverread (vname fname : Bytes) : Bool :=
  decide (vname.length < 27) || decide (fname.length < 63) ||
    !(vname.contains 0) || !(fname.contains 0)

/-- The record `MakeAlias` fills (lines 403-414) from the volume and the
directory entry the provider reports. -/
def fillAlias (E : Extern) (v : HfsVol) (ent : HfsEntry) : AliasData :=
  let vname := cbuf E.vnameCap v.name
  let fname := cbuf E.fnameCap ent.name
  { size := E.aliasSize % 65536
    volumeName := memcpyFrom E vname 27
    volumeNameSize := strlen vname % 256
    volumeCreationDate := v.crdate
    parentDirID := ent.parid
    fileName := memcpyFrom E fname 63
    fileNameSize := strlen fname % 256
    fileNum := ent.cnid
    fileCreationDate := ent.crdate
    typeCode := ent.type
    creatorCode := ent.creator }

/-- Whether `MakeAlias`, filling the two name slots (lines 405-410), reads
past a name buffer the provider reported. -/
def fillAliasOverread (E : Extern) (v : HfsVol) (ent : HfsEntry) : Bool :=
  aliasOverread (cbuf E.vnameCap v.name) (cbuf E.fnameCap ent.name)

/-- `MiniVMacLauncher::MakeAlias` (lines 395-426). -/
def MakeAlias (E : Extern) (dest src : Bytes) : M Unit := fun w =>
  match w.vol with
  | none => .fail .undefined w
  | some tgt =>
    match hfs_stat w.vol (c_str src) with
    | none => .fail .undefined w
    | some ent =>
      let aliasRec := fillAlias E tgt.v ent
      let ralias := E.resEncode [{ type := lit "alis", id := 0, data := E.aliasBytes aliasRec }]
      let c := hfs_create E.now tgt.v (c_str dest) (lit "adrp") ent.creator
      let falias := hfs_setfork c.2 1
      let w1 := hfs_write c.1 falias ralias
      .ok () { w with
                vol := some { tgt with v := w1.1 }
                log := .create (c_str dest) (lit "adrp") ent.creator
                  :: .makeAlias dest src :: w.log }

/-- `MiniVMacLauncher::DumpOutput` (lines 451-468). -/
def DumpOutput (E : Extern) (imagePath : Path) : M Unit :=
  (hfs_mount E imagePath false).bind fun m w =>
    let w0 := { w with vol := m }
    match m with
    | none => .ok () w0
    | some mv =>
      match hfs_stat m (lit "out") with
      | none => .ok () w0
      | some fileent =>
        match hfs_open mv.v (lit "out") with
        | none => .ok () w0
        | some out =>
          let dsize := fileent.dfork.length
          let buffer0 : Bytes := List.replicate dsize 0
          let out1 := hfs_setfork out 0
          let r := hfs_read mv.v out1 dsize
          let buffer := overwrite buffer0 0 r.1
          ((hfs_umount E mv).bind fun _ w2 => .ok () { w2 with vol := none })
            { w0 with cout := w0.cout ++ buffer }

/-! ## The constructor and the destructor -/

/-- The options of `po::variables_map` the constructor reads, with paths
already resolved; `romFilename` is `romFile.filename()`. -/
structure Options where
  systemImage : Path
  autoquitImage : Option Path
  autquit7Image : Option Path
  romFile : Path
  romFilename : String
  vmacPath : Path

/-- `options[key]` for the two strategy-specific keys. -/
def Options.lookup (o : Options) (key : String) : Option Path :=
  if key = "autquit7-image" then o.autquit7Image
  else if key = "autoquit-image" then o.autoquitImage
  else none

/-- What the constructor takes from the `Launcher` base class, and the two
fresh names `fs::unique_path()` yields for the two `ConvertImage` calls. -/
structure Inputs where
  tempDir : Path
  appData : Bytes
  appResources : List Resource
  unique1 : Path
  unique2 : Path

/-- Lines 174-175: a zeroed 1024-byte vector filled by one `read`. -/
def readBootBlock (h : HostFS) (p : Path) : Bytes :=
  overwrite (List.replicate 1024 0) 0 ((IStream.ifstream h p).read 1024).1

/-- The test of line 177. -/
def notBootable (bootblock1 : Bytes) : Bool :=
  bootblock1.getD 0 0 != 0x4C || bootblock1.getD 1 0 != 0x4B ||
    decide (15 < (bootblock1.getD 0xA 0).val)

/-- Line 186: the system file name held in the boot block. -/
def bootSystemFileName (bootblock1 : Bytes) : Bytes :=
  (bootblock1.drop 0xB).take (bootblock1.getD 0xA 0).val

/-- Line 189. -/
def usesAutQuit7 (sysver : Nat) : Bool := decide (0x700 ≤ sysver)

/-- Line 190. -/
def optionsKey (sysver : Nat) : String :=
  if usesAutQuit7 sysver then "autquit7-image" else "autoquit-image"

/-- Lines 209-213: the patch of the in-memory boot block. -/
def patchBootBlock (bootblock1 : Bytes) : Bytes :=
  let finderName := lit "AutoQuit"
  let b1 := bootblock1.set 0x1A (Fin.ofNat finderName.length)
  let b2 := overwrite b1 0x1B finderName
  let b3 := b2.set 0x5A 3
  overwrite b3 0x5B (lit "App")

/-- Lines 207-216: the 1024 bytes written at the start of the new image. -/
def bootBlockWritten (sysver : Nat) (bootblock1 : Bytes) : Bytes :=
  if !usesAutQuit7 sysver then patchBootBlock bootblock1 else bootblock1

/-- Line 204: create or truncate the file and extend it to `size` bytes. -/
def createImage (path : Path) (size : Nat) : M Unit := fun w =>
  .ok () { w with
            host := w.host.put path (List.replicate size 0)
            log := .fileCreate path size :: w.log }

/-- Modelled from the spec: `format(path, volumeName)` as the step of line
205, `hfs_format(path, 0, 0, name, 0, NULL)`. -/
def hfs_format (E : Extern) (path : Path) (name : Bytes) : M Unit := fun w =>
  .ok () { w with
            host := (match w.host path with
                     | some b => w.host.put path (E.format name b)
                     | none => w.host)
            log := .format path :: w.log }

/-- Lines 215-216: write `bytes` over the start of an existing file. -/
def writeStart (path : Path) (bytes : Bytes) : M Unit := fun w =>
  .ok () { w with
            host := (match w.host path with
                     | some b => w.host.put path (overwrite b 0 bytes)
                     | none => w.host)
            log := .fileWrite path bytes :: w.log }

/-- Lines 236-248: the application as a dual-fork file. -/
def createApp (E : Extern) (i : Inputs) : M Unit := fun w =>
  match w.vol with
  | none => .fail .undefined w
  | some tgt =>
    let rsrc := E.resEncode i.appResources
    let c := hfs_create E.now tgt.v (lit "App") (lit "APPL") (lit "????")
    let w1 := hfs_write c.1 (hfs_setfork c.2 0) i.appData
    let w2 := hfs_write w1.1 (hfs_setfork w1.2 1) rsrc
    .ok () { w with
              vol := some { tgt with v := w2.1 }
              log := .create (lit "App") (lit "APPL") (lit "????") :: w.log }

/-- Lines 250-254: leave the system volume for the auto-quit image. -/
def switchDonor (E : Extern) (autoquitImage : Path) : M Unit := fun w =>
  match w.sysvol with
  | none => .fail .undefined w
  | some sys =>
    ((hfs_umount E sys).bind fun _ =>
      (hfs_mount E autoquitImage false).bind fun m w1 =>
        match m with
        | none => .fail (.thrown (.cannotOpen autoquitImage)) { w1 with sysvol := none }
        | some _ => .ok () { w1 with sysvol := m }) w

/-- Lines 259-260 on the target volume. -/
def startupItems (E : Extern) : M Unit := fun w =>
  match w.vol with
  | none => .fail .undefined w
  | some tgt =>
    let v1 := hfs_mkdir E.now tgt.v (lit "Startup Items")
    let v2 := hfs_rename v1 (lit "AutQuit7 alias") (lit "Startup Items")
    .ok () { w with
              vol := some { tgt with v := v2 }
              log := .rename (lit "AutQuit7 alias") (lit "Startup Items")
                :: .mkdir (lit "Startup Items") :: w.log }

/-- Lines 255-265: install the auto-quit utility. -/
def installAutoQuit (E : Extern) (sysver : Nat) : M Unit :=
  if usesAutQuit7 sysver then
    (CopySystemFile E (lit "AutQuit7") true).bind fun _ =>
    (MakeAlias E (lit "AutQuit7 alias") (lit "AutQuit7")).bind fun _ =>
    startupItems E
  else
    CopySystemFile E (lit "AutoQuit") true

/-- Lines 267-270: the empty output file. -/
def createOut (E : Extern) : M Unit := fun w =>
  match w.vol with
  | none => .fail .undefined w
  | some tgt =>
    let c := hfs_create E.now tgt.v (lit "out") (lit "TEXT") (lit "MPS ")
    .ok () { w with
              vol := some { tgt with v := c.1 }
              log := .create (lit "out") (lit "TEXT") (lit "MPS ") :: w.log }

/-- Lines 271-272: unmount both volumes and clear both members. -/
def umountBoth (E : Extern) : M Unit := fun w =>
  match w.sysvol, w.vol with
  | some sys, some tgt =>
    ((hfs_umount E sys).bind fun _ w1 =>
      ((hfs_umount E tgt).bind fun _ w2 => .ok () { w2 with vol := none })
        { w1 with sysvol := none }) w
  | _, _ => .fail .undefined w

/-- Lines 274-357 (the build without `__APPLE__`): the ROM links and the
private copy of the emulator, recorded as calls only. -/
def stageEmulator (o : Options) (i : Inputs) : M Unit :=
  (emit (.symlink o.romFile (i.tempDir ++ "/" ++ o.romFilename))).bind fun _ =>
  (if o.romFilename ≠ "vMac.ROM" then
     emit (.symlink o.romFile (i.tempDir ++ "/vMac.ROM"))
   else M.pure ()).bind fun _ =>
  emit (.copy o.vmacPath (i.tempDir ++ "/minivmac"))

/-- Lines 219-224: mount the new image read-write and bless its current
folder. -/
def mountTarget (E : Extern) (imagePath : Path) : M Unit :=
  (hfs_mount E imagePath true).bind fun m w =>
    match m with
    | none => .fail .aborted { w with vol := none }
    | some tgt => .ok () { w with vol := some { tgt with v := { tgt.v with blessed := tgt.v.cwd } } }

/-- Lines 198-224: normalise the auto-quit image, create and format the new
image, write the boot block and mount the new volume; the result is the
normalised auto-quit image. -/
def prepareImage (E : Extern) (i : Inputs) (p : Path) (bootblock1 : Bytes) (sysver : Nat) :
    M Path :=
  let imagePath := i.tempDir ++ "/disk1.dsk"
  (convertImage i.unique2 p).bind fun autoquitImage =>
  (createImage imagePath (5000 * 1024)).bind fun _ =>
  (hfs_format E imagePath (lit "SysAndApp")).bind fun _ =>
  (writeStart imagePath (bootBlockWritten sysver bootblock1)).bind fun _ =>
  (mountTarget E imagePath).bind fun _ =>
  M.pure autoquitImage

/-- Lines 228-248: the files taken from the system volume, and the
application. -/
def copyFromSystem (E : Extern) (i : Inputs) (systemFileName : Bytes) (sysver : Nat) : M Unit :=
  (CopySystemFile E systemFileName true).bind fun _ =>
  (CopySystemFile E (lit "MacsBug") false).bind fun _ =>
  (if usesAutQuit7 sysver then CopySystemFile E (lit "Finder") true else M.pure ()).bind fun _ =>
  createApp E i

/-- Lines 250-272: the auto-quit utility, the output file, and the
unmounting of both volumes. -/
def finishVolume (E : Extern) (autoquitImage : Path) (sysver : Nat) : M Unit :=
  (switchDonor E autoquitImage).bind fun _ =>
  (installAutoQuit E sysver).bind fun _ =>
  (createOut E).bind fun _ =>
  umountBoth E

/-- The constructor from line 189 on, as a function of the probed version
`sysver`, the boot block read and the system file name taken from it. -/
def assemble (E : Extern) (o : Options) (i : Inputs) (bootblock1 systemFileName : Bytes)
    (sysver : Nat) : M Unit :=
  (emit (.optionCount (optionsKey sysver))).bind fun _ =>
  match o.lookup (optionsKey sysver) with
  | none => raise (.notConfigured (optionsKey sysver) (sysver / 256))
  | some p =>
    (prepareImage E i p bootblock1 sysver).bind fun autoquitImage =>
    (copyFromSystem E i systemFileName sysver).bind fun _ =>
    (finishVolume E autoquitImage sysver).bind fun _ =>
    stageEmulator o i

/-- Lines 180-184: mount the system image read-only and make its blessed
folder the current one. -/
def mountSystem (E : Extern) (systemImage : Path) : M Unit :=
  (hfs_mount E systemImage false).bind fun m w =>
    match m with
    | none => .fail .aborted { w with sysvol := none }
    | some sys => .ok () { w with sysvol := some { sys with v := { sys.v with cwd := sys.v.blessed } } }

/-- The constructor `MiniVMacLauncher::MiniVMacLauncher` (lines 163-358). -/
def construct (E : Extern) (o : Options) (i : Inputs) : M Unit := fun w =>
  ((convertImage i.unique1 o.systemImage).bind fun systemImage w1 =>
    let bootblock1 := readBootBlock w1.host systemImage
    if notBootable bootblock1 then
      .fail (.thrown (.notBootable systemImage)) w1
    else
      ((mountSystem E systemImage).bind fun _ =>
        let systemFileName := bootSystemFileName bootblock1
        (GetSystemVersion E systemFileName).bind fun sysver =>
        assemble E o i bootblock1 systemFileName sysver) w1)
    { w with sysvol := none, vol := none }

/-- The destructor `MiniVMacLauncher::~MiniVMacLauncher` (lines 360-367). -/
def destruct (E : Extern) : M Unit := fun w =>
  let w1 := match w.sysvol with
    | some m => (hfs_umount E m w).world
    | none => w
  match w1.vol with
  | some m => hfs_umount E m w1
  | none => .ok () w1

/-- `MiniVMac::MakeLauncher` (lines 492-495): `new MiniVMacLauncher(options)`.
When the constructor throws, the object was never constructed and its
destructor does not run; the exception reaches the caller with the state the
constructor left. -/
def MakeLauncher (E : Extern) (o : Options) (i : Inputs) : M Unit :=
  construct E o i

/-! ## Field readers used to state the properties -/

/-- The big-endian 16-bit value at offset `off` of `d`, when `d` holds both
bytes. -/
def be16At (d : Bytes) (off : Nat) : Option Nat :=
  match d[off]?, d[off + 1]? with
  | some a, some b => some (a.val * 256 + b.val)
  | _, _ => none

/-- The big-endian 32-bit value at offset `off` of `d`, when `d` holds all
four bytes. -/
def be32At (d : Bytes) (off : Nat) : Option Nat :=
  match be16At d off, be16At d (off + 2) with
  | some a, some b => some (a * 65536 + b)
  | _, _ => none

/-- The four tests of wrapper detection as the specification words them:
the 16-bit value at 0x52 is 0x0100, the 16-bit value at 0x54+1024 is 0x4244,
the 32-bit length at 0x40 is a multiple of 512, and the size of the file is
0x54 plus that length. -/
def wrapperTests (d : Bytes) : Bool :=
  be16At d 0x52 == some 0x0100 && be16At d (0x54 + 1024) == some 0x4244 &&
    (match be32At d 0x40 with
     | some len => len % 512 == 0 && d.length == 0x54 + len
     | none => false)

/-- The events a run added to the log of the state it started from. -/
def Res.events {α : Type} (r : Res α) (w : World) : List Event :=
  r.world.log.take (r.world.log.length - w.log.length)

/-- The value a step returned, if it returned. -/
def Res.value {α : Type} : Res α → Option α
  | .ok a _ => some a
  | .fail _ _ => none

/-- Every run of `m` extends the log, and only by events that satisfy `Q`. -/
def Emits {α : Type} (Q : Event → Prop) (m : M α) : Prop :=
  ∀ w, ∃ evs, (m w).world.log = evs ++ w.log ∧ ∀ e ∈ evs, Q e

/-- Every run of `m` extends the log. -/
class Grows {α : Type} (m : M α) : Prop where
  grows : Emits (fun _ => True) m

/-- Every failure of `m` satisfies `P`. -/
def FailsOnly {α : Type} (P : Failure → Prop) (m : M α) : Prop :=
  ∀ w f, (m w).failure = some f → P f

/-- A failure other than the "Not a bootable Mac disk image" error. -/
def otherFailure (f : Failure) : Prop := ∀ p, f ≠ .thrown (.notBootable p)

/-- What the strategy chosen for version `sysver` allows a run of `assemble`
to add to the log: the option key it consults, the boot block it writes to
the new image, and the alias, the folder and the move only under the modern
strategy. -/
def strategyEvent (sysver : Nat) (bootblock1 : Bytes) (imagePath : Path) : Event → Prop
  | .optionCount k => k = optionsKey sysver
  | .fileWrite p b => p = imagePath ∧ b = bootBlockWritten sysver bootblock1
  | .makeAlias _ _ => 0x700 ≤ sysver
  | .mkdir _ => 0x700 ≤ sysver
  | .rename _ _ => 0x700 ≤ sysver
  | _ => True

/-! ## Sample inputs -/

/-- A 0x54-byte container header: zeros, the length field at 0x40 and the
version field 0x0100 at 0x52. -/
def diskCopyHeader (len : Nat) : Bytes :=
  List.replicate 0x40 0 ++
    [Fin.ofNat (len / 16777216), Fin.ofNat (len / 65536), Fin.ofNat (len / 256), Fin.ofNat len] ++
    List.replicate 14 0 ++ [1, 0]

/-- A 1536-byte raw volume: zeros and the signature 0x4244 at offset 1024. -/
def sampleVolume : Bytes :=
  List.replicate 1024 0 ++ [0x42, 0x44] ++ List.replicate 510 0

/-- A file of 2^32 + 0x54 + 1536 bytes: a header that states the length 1536,
the signature 0x4244 at offset 0x54 + 1024, and zeros. -/
def hugeImage : Bytes :=
  (diskCopyHeader 1536 ++ List.replicate 1024 0 ++ [0x42, 0x44]) ++
    List.replicate (510 + 4294967296) 0

/-- A host with the single file `p`. -/
def singleFile (p : Path) (d : Bytes) : HostFS := fun q => if q = p then some d else none

/-- A plain file entry in folder `parid`. -/
def demoFile (name : String) (cnid parid : Nat) (dfork rfork : Bytes) : HfsEntry :=
  { name := lit name, isDir := false, cnid := cnid, parid := parid, crdate := 0,
    type := lit "ZSYS", creator := lit "MACS", dfork := dfork, rfork := rfork }

def demoSystem6 : HfsVol :=
  { name := lit "Sys6", crdate := 1, cwd := 2, blessed := 7, nextCnid := 20,
    entries := [demoFile "System" 16 7 [1, 2, 3] [6, 8]] }

def demoSystem7 : HfsVol :=
  { name := lit "Sys7", crdate := 1, cwd := 2, blessed := 7, nextCnid := 20,
    entries := [demoFile "System" 16 7 [1, 2, 3] [7, 0], demoFile "Finder" 17 7 [4] [5, 6]] }

def demoAutoQuit : HfsVol :=
  { name := lit "AutoQuit", crdate := 1, cwd := 2, blessed := 0, nextCnid := 20,
    entries := [demoFile "AutoQuit" 16 2 [9] [9, 9]] }

def demoAutQuit7 : HfsVol :=
  { name := lit "AutQuit7", crdate := 1, cwd := 2, blessed := 0, nextCnid := 20,
    entries := [demoFile "AutQuit7" 16 2 [9] [9, 9]] }

def demoWithOut : HfsVol :=
  { name := lit "SysAndApp", crdate := 1, cwd := 2, blessed := 2, nextCnid := 20,
    entries := [{ name := lit "out", isDir := false, cnid := 16, parid := 2, crdate := 0,
                  type := lit "TEXT", creator := lit "MPS ", dfork := [0x68, 0x69],
                  rfork := [] }] }

def demoBlank : HfsVol :=
  { name := lit "SysAndApp", crdate := 1, cwd := 2, blessed := 0, nextCnid := 16, entries := [] }

def demoExtern : Extern :=
  { mount := fun b =>
      if b.length ≤ 1024 then none
      else if b.getD 1024 0 = 1 then some demoSystem6
      else if b.getD 1024 0 = 2 then some demoAutoQuit
      else if b.getD 1024 0 = 3 then some demoSystem7
      else if b.getD 1024 0 = 4 then some demoAutQuit7
      else if b.getD 1024 0 = 5 then some demoWithOut
      else some demoBlank
    format := fun _ _ => List.replicate 1025 0
    flush := fun _ b => b
    now := 0
    resDecode := fun b => [{ type := lit "vers", id := 1, data := b }]
    resEncode := fun rs => rs.flatMap (fun r => r.data)
    vnameCap := 28
    fnameCap := 32
    beyond := fun _ => 0
    charSigned := true
    aliasSize := 150
    aliasBytes := fun a => a.volumeName ++ a.fileName }

def demoBoot : Bytes :=
  [0x4C, 0x4B] ++ List.replicate 8 0 ++ [6] ++ lit "System" ++ List.replicate 1007 0

def demoHost : HostFS := fun p =>
  if p = "sys6.img" then some (demoBoot ++ [1])
  else if p = "aq.img" then some (List.replicate 1024 0 ++ [2])
  else if p = "sys7.img" then some (demoBoot ++ [3])
  else if p = "aq7.img" then some (List.replicate 1024 0 ++ [4])
  else if p = "out.dsk" then some (List.replicate 1024 0 ++ [5])
  else if p = "blank.dsk" then some (List.replicate 1025 0)
  else none

def demoWorld : World := { host := demoHost, sysvol := none, vol := none, cout := [], log := [] }

def demoOptions6 : Options :=
  { systemImage := "sys6.img", autoquitImage := some "aq.img", autquit7Image := none,
    romFile := "vMac.ROM", romFilename := "vMac.ROM", vmacPath := "minivmac" }
/-- The System 6 options without the "autoquit-image" option. -/
def demoOptionsNoKey : Options := { demoOptions6 with autoquitImage := none }

/-- The System 6 options with an auto-quit image that cannot be mounted. -/
def demoOptionsBadImage : Options := { demoOptions6 with autoquitImage := some "missing.img" }

/-- A state whose donor holds a System file with the `vers` data 06 80. -/
def demoVersWorld : World :=
  { demoWorld with
      sysvol := some { image := "sys.img", rw := false,
                       v := { demoSystem6 with
                                cwd := 7
                                entries := [demoFile "System" 16 7 [] [0x06, 0x80]] } } }

def demoInputs : Inputs :=
  { tempDir := "tmp", appData := [1], appResources := [], unique1 := "tmp/u1", unique2 := "tmp/u2" }

/-! # Properties -/

/-! ### Input streams and the big-endian readers -/

theorem get_data (s : IStream) : s.get.2.data = s.data := by
  unfold IStream.get
  split
  · rfl
  · split <;> rfl

theorem byte_data (s : IStream) : (byte s).2.data = s.data := get_data s

theorem byte_failed (s : IStream) (hf : s.failed = true) : (byte s).2.failed = true := by
  simp [byte, IStream.get, hf]

theorem byte_good (s : IStream) (hf : s.failed = false) (b : Byte)
    (hb : s.data[s.pos]? = some b) :
    byte s = (b.val, { s with pos := s.pos + 1 }) := by
  simp [byte, IStream.get, hf, hb]

theorem byte_bad (s : IStream) (hb : s.data[s.pos]? = none) :
    (byte s).2.failed = true := by
  cases hf : s.failed
  · simp [byte, IStream.get, hf, hb]
  · exact byte_failed s hf

theorem word_data (s : IStream) : (word s).2.data = s.data := by
  simp [word, byte_data]

theorem word_failed (s : IStream) (hf : s.failed = true) : (word s).2.failed = true := by
  simp only [word]
  exact byte_failed _ (byte_failed _ hf)

theorem longword_data (s : IStream) : (longword s).2.data = s.data := by
  simp [longword, word_data]

theorem longword_failed (s : IStream) (hf : s.failed = true) :
    (longword s).2.failed = true := by
  simp only [longword]
  exact word_failed _ (word_failed _ hf)

theorem seekg_data (s : IStream) (n : Nat) : (s.seekg n).data = s.data := by
  unfold IStream.seekg; split <;> rfl

theorem seekg_failed (s : IStream) (n : Nat) : (s.seekg n).failed = s.failed := by
  unfold IStream.seekg; split <;> simp_all

theorem seekg_pos (s : IStream) (n : Nat) (hf : s.failed = false) : (s.seekg n).pos = n := by
  simp [IStream.seekg, hf]

theorem seekg_good (s : IStream) (n : Nat) (hf : s.failed = false) :
    s.seekg n = { s with pos := n } := by
  simp [IStream.seekg, hf]

/-- A two-byte read on a stream that is still good and holds both bytes. -/
theorem word_good (s : IStream) (hf : s.failed = false) (v : Nat)
    (hv : be16At s.data s.pos = some v) :
    word s = (v, { s with pos := s.pos + 2 }) := by
  unfold be16At at hv
  split at hv
  · rename_i a b ha hb
    simp only [Option.some.injEq] at hv
    subst hv
    simp only [word, byte_good s hf a ha]
    rw [byte_good { s with pos := s.pos + 1 } hf b hb]
  · exact absurd hv (by simp)

/-- A two-byte read that does not find both bytes leaves the stream failed. -/
theorem word_bad (s : IStream) (hv : be16At s.data s.pos = none) :
    (word s).2.failed = true := by
  cases hf : s.failed
  · simp only [word]
    cases ha : s.data[s.pos]? with
    | none => exact byte_failed _ (byte_bad _ ha)
    | some a =>
      rw [byte_good s hf a ha]
      apply byte_bad
      cases hb : s.data[s.pos + 1]? with
      | none => simp [hb]
      | some b => simp [be16At, ha, hb] at hv
  · exact word_failed _ hf

theorem longword_good (s : IStream) (hf : s.failed = false) (v : Nat)
    (hv : be32At s.data s.pos = some v) :
    longword s = (v, { s with pos := s.pos + 4 }) := by
  unfold be32At at hv
  split at hv
  · rename_i a b ha hb
    simp only [Option.some.injEq] at hv
    subst hv
    simp only [longword, word_good s hf a ha]
    rw [word_good { s with pos := s.pos + 2 } hf b hb]
  · exact absurd hv (by simp)

theorem longword_bad (s : IStream) (hv : be32At s.data s.pos = none) :
    (longword s).2.failed = true := by
  cases hf : s.failed
  · simp only [longword]
    cases ha : be16At s.data s.pos with
    | none => exact word_failed _ (word_bad _ ha)
    | some a =>
      rw [word_good s hf a ha]
      apply word_bad
      cases hb : be16At s.data (s.pos + 2) with
      | none => simp [hb]
      | some b => simp [be32At, ha, hb] at hv
  · exact longword_failed _ hf

theorem seekgEnd_failed (s : IStream) : s.seekgEnd.failed = s.failed := by
  unfold IStream.seekgEnd; split <;> simp_all

theorem be16At_lt (d : Bytes) (n v : Nat) (h : be16At d n = some v) : v < 65536 := by
  unfold be16At at h
  split at h
  · rename_i a b _ _
    simp only [Option.some.injEq] at h
    have := a.isLt; have := b.isLt; omega
  · exact absurd h (by simp)

theorem be32At_lt (d : Bytes) (n v : Nat) (h : be32At d n = some v) : v < 4294967296 := by
  unfold be32At at h
  split at h
  · rename_i a b ha hb
    simp only [Option.some.injEq] at h
    have := be16At_lt _ _ _ ha; have := be16At_lt _ _ _ hb; omega
  · exact absurd h (by simp)

/-- The probe on a file that holds all three fields. -/
theorem probeImage_good (h : HostFS) (path : Path) (d : Bytes) (hd : h path = some d)
    (len sig hfs : Nat) (hlen : be32At d 0x40 = some len) (hsig : be16At d 0x52 = some sig)
    (hhfs : be16At d (0x54 + 1024) = some hfs) :
    probeImage h path
      = (len, sig, hfs, d.length % 4294967296, { data := d, pos := d.length, failed := false }) := by
  have h1 := be32At_lt _ _ _ hlen
  have h2 := be16At_lt _ _ _ hsig
  have h3 := be16At_lt _ _ _ hhfs
  simp only [probeImage, IStream.ifstream, hd]
  rw [seekg_good _ _ rfl, longword_good _ rfl len hlen]
  simp only []
  rw [seekg_good _ _ rfl, word_good _ rfl sig hsig]
  simp only []
  rw [seekg_good _ _ rfl, word_good _ rfl hfs hhfs]
  simp only [IStream.seekgEnd, IStream.tellg, toU32]
  simp only [Bool.false_eq_true, if_false, Nat.mod_eq_of_lt h1, Nat.mod_eq_of_lt h2,
    Nat.mod_eq_of_lt h3]
  have e : ((d.length : Int) % 4294967296).toNat = d.length % 4294967296 := by omega
  rw [e]

/-- The probe on a missing file, or one that lacks a field, ends failed. -/
theorem probeImage_bad (h : HostFS) (path : Path)
    (hbad : ∀ d, h path = some d →
      be32At d 0x40 = none ∨ be16At d 0x52 = none ∨ be16At d (0x54 + 1024) = none) :
    (probeImage h path).2.2.2.1 = 4294967295 := by
  have key : (probeImage h path).2.2.2.2.failed = true := by
    simp only [probeImage]
    rw [seekgEnd_failed]
    cases hd : h path with
    | none =>
      apply word_failed; rw [seekg_failed]
      apply word_failed; rw [seekg_failed]
      apply longword_failed; rw [seekg_failed]
      simp [IStream.ifstream, hd]
    | some d =>
      simp only [IStream.ifstream, hd]
      rw [seekg_good { data := d, pos := 0, failed := false } 0x40 rfl]
      rcases hbad d hd with h1 | h2 | h3
      · apply word_failed; rw [seekg_failed]
        apply word_failed; rw [seekg_failed]
        exact longword_bad _ h1
      · apply word_failed; rw [seekg_failed]
        cases hf : (longword { data := d, pos := 0x40, failed := false }).2.failed
        · rw [seekg_good _ _ hf]
          apply word_bad
          simpa [longword_data] using h2
        · apply word_failed; rw [seekg_failed]; exact hf
      · cases hf : (word ((longword { data := d, pos := 0x40, failed := false }).2.seekg 0x52)).2.failed
        · rw [seekg_good _ _ hf]
          apply word_bad
          simpa [longword_data, word_data, seekg_data] using h3
        · apply word_failed; rw [seekg_failed]; exact hf
  have : (probeImage h path).2.2.2.1 = toU32 (probeImage h path).2.2.2.2.tellg := rfl
  rw [this]
  simp only [IStream.tellg, key, if_true]
  decide

theorem copyLoop_eq (fuel : Nat) : ∀ (s : IStream) (out : Bytes),
    s.data.length - s.pos < fuel →
    copyLoop fuel s out = out ++ (if s.failed then [] else s.data.drop s.pos) := by
  induction fuel with
  | zero => intro s out h; omega
  | succ fuel ih =>
    intro s out hlt
    cases hf : s.failed
    · simp only [copyLoop, IStream.read, hf, Bool.false_eq_true, if_false]
      by_cases hc : ((s.data.drop s.pos).take 4096).length > 0
      · rw [if_pos hc, ih]
        · simp only [List.append_assoc]
          congr 1
          by_cases hs : ((s.data.drop s.pos).take 4096).length < 4096
          · simp only [hs, decide_True, if_true, List.append_nil]
            apply List.take_of_length_le
            simp only [List.length_take, List.length_drop] at hs ⊢
            omega
          · simp only [hs, decide_False, Bool.false_eq_true, if_false]
            have h4 : ((s.data.drop s.pos).take 4096).length = 4096 := by
              simp only [List.length_take, List.length_drop] at hs ⊢
              omega
            rw [h4, ← List.drop_drop]
            exact List.take_append_drop 4096 _
        · simp only [List.length_take, List.length_drop] at hc ⊢
          omega
      · rw [if_neg hc]
        have h0 : s.data.drop s.pos = [] := by
          simp only [List.length_take, List.length_drop] at hc
          apply List.drop_of_length_le
          omega
        simp [h0]
    · simp [copyLoop, IStream.read, hf]

theorem isDiskCopy_iff (h : HostFS) (path : Path) :
    isDiskCopy h path = true ↔
      ∃ d len, h path = some d ∧ be16At d 0x52 = some 0x0100 ∧
        be16At d (0x54 + 1024) = some 0x4244 ∧ be32At d 0x40 = some len ∧
        len % 512 = 0 ∧ d.length % 4294967296 = len + 0x54 := by
  constructor
  · intro hw
    by_cases hgood : ∃ d len sig hfs, h path = some d ∧ be32At d 0x40 = some len ∧
        be16At d 0x52 = some sig ∧ be16At d (0x54 + 1024) = some hfs
    · obtain ⟨d, len, sig, hfs, hd, hlen, hsig, hhfs⟩ := hgood
      have hl := be32At_lt _ _ _ hlen
      simp only [isDiskCopy, probeImage_good h path d hd len sig hfs hlen hsig hhfs,
        decide_eq_true_eq] at hw
      obtain ⟨h1, h2, h3, h4⟩ := hw
      refine ⟨d, len, hd, by rw [hsig, h1], by rw [hhfs, h4], hlen, h3, ?_⟩
      omega
    · have hb := probeImage_bad h path (by
        intro d hd
        by_contra hc
        simp only [not_or, ← ne_eq, Option.ne_none_iff_exists'] at hc
        obtain ⟨⟨len, hlen⟩, ⟨sig, hsig⟩, ⟨hfs, hhfs⟩⟩ := hc
        exact hgood ⟨d, len, sig, hfs, hd, hlen, hsig, hhfs⟩)
      simp only [isDiskCopy, decide_eq_true_eq, hb] at hw
      omega
  · rintro ⟨d, len, hd, hsig, hhfs, hlen, h512, hsz⟩
    have hl := be32At_lt _ _ _ hlen
    simp only [isDiskCopy, probeImage_good h path d hd len _ _ hlen hsig hhfs,
      decide_eq_true_eq]
    refine ⟨trivial, ?_, h512, trivial⟩
    omega

theorem ConvertImage_wrapped (h : HostFS) (outPath path : Path) (d : Bytes)
    (hd : h path = some d) (hw : isDiskCopy h path = true) :
    ConvertImage h outPath path = (outPath, h.put outPath (d.drop 0x54)) := by
  obtain ⟨d', len, hd', hsig, hhfs, hlen, -, -⟩ := (isDiskCopy_iff h path).1 hw
  rw [hd] at hd'
  cases hd'
  simp only [ConvertImage, hw, if_true, probeImage_good h path d hd len _ _ hlen hsig hhfs]
  rw [seekg_good _ _ rfl, copyLoop_eq _ _ _ (by simp; omega)]
  simp

theorem ConvertImage_plain (h : HostFS) (outPath path : Path)
    (hw : isDiskCopy h path = false) :
    ConvertImage h outPath path = (path, h) := by
  simp [ConvertImage, hw]


/-! ### Wrapper detection and round trip -/

theorem be16At_append_left (a b : Bytes) (n : Nat) (h : n + 1 < a.length) :
    be16At (a ++ b) n = be16At a n := by
  unfold be16At
  rw [List.getElem?_append_left (by omega), List.getElem?_append_left h]

theorem be32At_append_left (a b : Bytes) (n : Nat) (h : n + 3 < a.length) :
    be32At (a ++ b) n = be32At a n := by
  unfold be32At
  rw [be16At_append_left a b n (by omega), be16At_append_left a b (n + 2) (by omega)]

theorem be16At_append_right (a b : Bytes) (n : Nat) :
    be16At (a ++ b) (a.length + n) = be16At b n := by
  unfold be16At
  rw [List.getElem?_append_right (by omega), List.getElem?_append_right (by omega)]
  have e1 : a.length + n - a.length = n := by omega
  have e2 : a.length + n + 1 - a.length = n + 1 := by omega
  rw [e1, e2]

/-- C1, counterexample: the empty volume behind a well-formed header is not
treated as wrapped; `ConvertImage` returns the input path and writes no file. -/
theorem C1_empty_volume_not_wrapped :
    (diskCopyHeader 0).length = 0x54 ∧
    be32At (diskCopyHeader 0) 0x40 = some ([] : Bytes).length ∧
    be16At (diskCopyHeader 0) 0x52 = some 0x0100 ∧
    (ConvertImage (singleFile "w.img" (diskCopyHeader 0 ++ [])) "tmp/u" "w.img").1 = "w.img" ∧
    (ConvertImage (singleFile "w.img" (diskCopyHeader 0 ++ [])) "tmp/u" "w.img").2 "tmp/u"
      = none := by
  decide!

/-- C1, amended: a raw volume `V` whose length is a multiple of 512 and which
carries the signature 0x4244 at offset 1024, prefixed with a 0x54-byte header
that states its length at 0x40 and 0x0100 at 0x52, is treated as wrapped, and
the temporary file `ConvertImage` returns holds exactly the bytes of `V`. -/
theorem C1_wrapper_roundtrip (H V : Bytes) (h : HostFS) (outPath path : Path)
    (hH : H.length = 0x54) (hlen : be32At H 0x40 = some V.length)
    (hsig : be16At H 0x52 = some 0x0100) (h512 : V.length % 512 = 0)
    (hhfs : be16At V 1024 = some 0x4244) (hfile : h path = some (H ++ V)) :
    ConvertImage h outPath path = (outPath, h.put outPath V) ∧
      (ConvertImage h outPath path).2 (ConvertImage h outPath path).1 = some V := by
  have hw : isDiskCopy h path = true := by
    rw [isDiskCopy_iff]
    have hl := be32At_lt _ _ _ hlen
    refine ⟨H ++ V, V.length, hfile, ?_, ?_, ?_, h512, ?_⟩
    · rw [be16At_append_left _ _ _ (by omega)]; exact hsig
    · have := be16At_append_right H V 1024
      rw [hH] at this
      rw [this]; exact hhfs
    · rw [be32At_append_left _ _ _ (by omega)]; exact hlen
    · rw [List.length_append, hH]; omega
  have hc := ConvertImage_wrapped h outPath path (H ++ V) hfile hw
  have hd : (H ++ V).drop 0x54 = V := by
    rw [← hH]; exact List.drop_left H V
  rw [hd] at hc
  refine ⟨hc, ?_⟩
  rw [hc]
  simp [HostFS.put]

/-- C1, witness: the sample volume behind its header. -/
theorem C1_wrapper_roundtrip_witness :
    ConvertImage (singleFile "w.img" (diskCopyHeader 1536 ++ sampleVolume)) "tmp/u" "w.img"
        = ("tmp/u", (singleFile "w.img" (diskCopyHeader 1536 ++ sampleVolume)).put "tmp/u"
            sampleVolume) ∧
      (ConvertImage (singleFile "w.img" (diskCopyHeader 1536 ++ sampleVolume)) "tmp/u" "w.img").2
        (ConvertImage (singleFile "w.img" (diskCopyHeader 1536 ++ sampleVolume)) "tmp/u"
          "w.img").1 = some sampleVolume :=
  C1_wrapper_roundtrip (diskCopyHeader 1536) sampleVolume
    (singleFile "w.img" (diskCopyHeader 1536 ++ sampleVolume)) "tmp/u" "w.img"
    (by decide!) (by decide!) (by decide!) (by decide!) (by decide!) (by simp [singleFile])

theorem wrapperTests_iff (d : Bytes) :
    wrapperTests d = true ↔
      ∃ len, be16At d 0x52 = some 0x0100 ∧ be16At d (0x54 + 1024) = some 0x4244 ∧
        be32At d 0x40 = some len ∧ len % 512 = 0 ∧ d.length = 0x54 + len := by
  unfold wrapperTests
  cases hl : be32At d 0x40 with
  | none => simp
  | some len =>
    simp only [Bool.and_eq_true, beq_iff_eq, Option.some.injEq]
    constructor
    · rintro ⟨⟨h1, h2⟩, h3, h4⟩
      exact ⟨len, h1, h2, rfl, h3, h4⟩
    · rintro ⟨len', h1, h2, h3, h4, h5⟩
      subst h3
      exact ⟨⟨h1, h2⟩, h4, h5⟩

/-- C2, the failing input: a file of 2^32 + 0x54 + 1536 bytes whose header
states the length 1536 does not have the size 0x54 plus that length, so the
four tests do not all hold, yet `ConvertImage` narrows the size to 32 bits
(line 140) and treats the file as wrapped. -/
theorem C2_huge_file_treated_as_wrapped :
    wrapperTests hugeImage = false ∧
    (ConvertImage (singleFile "w.img" hugeImage) "tmp/u" "w.img").1 = "tmp/u" := by
  have hlen : hugeImage.length = 1110 + (510 + 4294967296) := by
    have hp : (diskCopyHeader 1536 ++ List.replicate 1024 0 ++ [0x42, 0x44]).length = 1110 := by
      decide!
    unfold hugeImage
    rw [List.length_append, List.length_replicate, hp]
  have h32 : be32At hugeImage 0x40 = some 1536 := by
    unfold hugeImage
    rw [be32At_append_left _ _ _ (by decide!)]
    decide!
  have hsig : be16At hugeImage 0x52 = some 0x0100 := by
    unfold hugeImage
    rw [be16At_append_left _ _ _ (by decide!)]
    decide!
  have hhfs : be16At hugeImage (0x54 + 1024) = some 0x4244 := by
    unfold hugeImage
    rw [be16At_append_left _ _ _ (by decide!)]
    decide!
  constructor
  · cases hw : wrapperTests hugeImage with
    | false => rfl
    | true =>
      obtain ⟨len, -, -, h3, -, h5⟩ := (wrapperTests_iff _).1 hw
      rw [h32] at h3
      cases h3
      omega
  · have hw : isDiskCopy (singleFile "w.img" hugeImage) "w.img" = true := by
      rw [isDiskCopy_iff]
      exact ⟨hugeImage, 1536, by simp [singleFile], hsig, hhfs, h32, by decide, by omega⟩
    rw [ConvertImage_wrapped _ _ _ hugeImage (by simp [singleFile]) hw]

/-- Where the narrowing of line 140 loses nothing, on a file of fewer than
2^32 bytes, `ConvertImage` treats the file as wrapped exactly when the four
tests hold, and then returns the temporary file with the bytes behind the
header; in every other case, a missing or too short file included, it
returns the input path and leaves the host files as they are. -/
theorem ConvertImage_detection_below_4GiB (h : HostFS) (outPath path : Path)
    (hsz : ∀ d, h path = some d → d.length < 4294967296) :
    ConvertImage h outPath path =
      match h path with
      | some d =>
        if wrapperTests d = true then (outPath, h.put outPath (d.drop 0x54)) else (path, h)
      | none => (path, h) := by
  cases hd : h path with
  | none =>
    apply ConvertImage_plain
    cases hw : isDiskCopy h path with
    | false => rfl
    | true =>
      obtain ⟨d, _, hd', _⟩ := (isDiskCopy_iff h path).1 hw
      rw [hd] at hd'
      cases hd'
  | some d =>
    have hlt := hsz d hd
    by_cases ht : wrapperTests d = true
    · simp only [ht, if_true]
      apply ConvertImage_wrapped _ _ _ d hd
      obtain ⟨len, h1, h2, h3, h4, h5⟩ := (wrapperTests_iff d).1 ht
      rw [isDiskCopy_iff]
      exact ⟨d, len, hd, h1, h2, h3, h4, by omega⟩
    · simp only [ht, if_false]
      apply ConvertImage_plain
      cases hw : isDiskCopy h path with
      | false => rfl
      | true =>
        exfalso
        obtain ⟨d', len, hd', h1, h2, h3, h4, h5⟩ := (isDiskCopy_iff h path).1 hw
        rw [hd] at hd'
        cases hd'
        apply ht
        rw [wrapperTests_iff]
        exact ⟨len, h1, h2, h3, h4, by omega⟩

theorem bind_ok {α β : Type} (m : M α) (f : α → M β) (w w1 : World) (a : α)
    (h : m w = .ok a w1) : m.bind f w = f a w1 := by
  simp [M.bind, h]

theorem bind_fail {α β : Type} (m : M α) (f : α → M β) (w w1 : World) (e : Failure)
    (h : m w = .fail e w1) : m.bind f w = .fail e w1 := by
  simp [M.bind, h]

theorem emits_bind {α β : Type} {Q : Event → Prop} {m : M α} {f : α → M β}
    (hm : Emits Q m) (hf : ∀ a, Emits Q (f a)) : Emits Q (m.bind f) := by
  intro w
  obtain ⟨e1, h1, q1⟩ := hm w
  cases hr : m w with
  | ok a w1 =>
    rw [bind_ok m f w w1 a hr]
    obtain ⟨e2, h2, q2⟩ := hf a w1
    rw [hr] at h1
    simp only [Res.world] at h1
    refine ⟨e2 ++ e1, by rw [h2, h1, List.append_assoc], ?_⟩
    intro e he
    rcases List.mem_append.1 he with h | h
    · exact q2 e h
    · exact q1 e h
  | fail e w1 =>
    rw [bind_fail m f w w1 e hr]
    rw [hr] at h1
    exact ⟨e1, h1, q1⟩

theorem emits_mono {α : Type} {Q Q' : Event → Prop} {m : M α} (hm : Emits Q m)
    (h : ∀ e, Q e → Q' e) : Emits Q' m := by
  intro w
  obtain ⟨e1, h1, q1⟩ := hm w
  exact ⟨e1, h1, fun e he => h e (q1 e he)⟩

theorem emits_grows {α : Type} {Q : Event → Prop} {m : M α} (hm : Emits Q m) :
    Emits (fun _ => True) m := emits_mono hm (fun _ _ => trivial)

theorem failsOnly_bind {α β : Type} {P : Failure → Prop} {m : M α} {f : α → M β}
    (hm : FailsOnly P m) (hf : ∀ a, FailsOnly P (f a)) : FailsOnly P (m.bind f) := by
  intro w e he
  cases hr : m w with
  | ok a w1 =>
    rw [bind_ok m f w w1 a hr] at he
    exact hf a w1 e he
  | fail e' w1 =>
    rw [bind_fail m f w w1 e' hr] at he
    exact hm w e (by rw [hr]; exact he)

/-! ### The steps -/

theorem emits_pure {α : Type} (Q : Event → Prop) (a : α) : Emits Q (M.pure a) :=
  fun _ => ⟨[], rfl, by simp⟩

theorem emits_emit (Q : Event → Prop) (e : Event) (h : Q e) : Emits Q (emit e) :=
  fun _ => ⟨[e], rfl, by simpa using h⟩

theorem emits_raise {α : Type} (Q : Event → Prop) (e : Error) : Emits Q (raise e : M α) :=
  fun _ => ⟨[], rfl, by simp⟩

theorem emits_hfs_mount (Q : Event → Prop) (E : Extern) (image : Path) (rw : Bool)
    (h : Q (.mount image rw)) : Emits Q (hfs_mount E image rw) :=
  fun _ => ⟨[.mount image rw], rfl, by simpa using h⟩

theorem emits_hfs_umount (Q : Event → Prop) (E : Extern) (m : Mounted)
    (h : Q (.umount m.image)) : Emits Q (hfs_umount E m) :=
  fun _ => ⟨[.umount m.image], rfl, by simpa using h⟩

theorem emits_convertImage (Q : Event → Prop) (outPath path : Path) :
    Emits Q (convertImage outPath path) :=
  fun _ => ⟨[], rfl, by simp⟩

theorem emits_createImage (Q : Event → Prop) (path : Path) (size : Nat)
    (h : Q (.fileCreate path size)) : Emits Q (createImage path size) :=
  fun _ => ⟨[.fileCreate path size], rfl, by simpa using h⟩

theorem emits_hfs_format (Q : Event → Prop) (E : Extern) (path : Path) (name : Bytes)
    (h : Q (.format path)) : Emits Q (hfs_format E path name) :=
  fun _ => ⟨[.format path], rfl, by simpa using h⟩

theorem emits_writeStart (Q : Event → Prop) (path : Path) (bytes : Bytes)
    (h : Q (.fileWrite path bytes)) : Emits Q (writeStart path bytes) :=
  fun _ => ⟨[.fileWrite path bytes], rfl, by simpa using h⟩

theorem emits_CopySystemFile (Q : Event → Prop) (E : Extern) (fn : Bytes) (required : Bool)
    (h : ∀ t c, Q (.create (c_str fn) t c)) : Emits Q (CopySystemFile E fn required) := by
  intro w
  unfold CopySystemFile
  split
  · split
    · exact ⟨[], rfl, by simp⟩
    · exact ⟨[], rfl, by simp⟩
  · rename_i fileent _
    split
    · split
      · exact ⟨[], rfl, by simp⟩
      · exact ⟨[.create (c_str fn) fileent.type fileent.creator], rfl, by simpa using h _ _⟩
    · exact ⟨[], rfl, by simp⟩

theorem emits_GetSystemVersion (Q : Event → Prop) (E : Extern) (fn : Bytes) :
    Emits Q (GetSystemVersion E fn) := by
  intro w
  unfold GetSystemVersion
  split
  · exact ⟨[], rfl, by simp⟩
  · split
    · simp only []
      split
      · exact ⟨[], rfl, by simp⟩
      · exact ⟨[], rfl, by simp⟩
    · exact ⟨[], rfl, by simp⟩

theorem emits_MakeAlias (Q : Event → Prop) (E : Extern) (dest src : Bytes)
    (h1 : ∀ c, Q (.create (c_str dest) (lit "adrp") c)) (h2 : Q (.makeAlias dest src)) :
    Emits Q (MakeAlias E dest src) := by
  intro w
  unfold MakeAlias
  split
  · exact ⟨[], rfl, by simp⟩
  · split
    · exact ⟨[], rfl, by simp⟩
    · rename_i ent _
      exact ⟨[.create (c_str dest) (lit "adrp") ent.creator, .makeAlias dest src], rfl, by
        intro e he
        simp only [List.mem_cons, List.mem_singleton, List.not_mem_nil, or_false] at he
        rcases he with rfl | rfl
        · exact h1 _
        · exact h2⟩

theorem emits_createApp (Q : Event → Prop) (E : Extern) (i : Inputs)
    (h : Q (.create (lit "App") (lit "APPL") (lit "????"))) : Emits Q (createApp E i) := by
  intro w
  unfold createApp
  split
  · exact ⟨[], rfl, by simp⟩
  · exact ⟨[.create (lit "App") (lit "APPL") (lit "????")], rfl, by simpa using h⟩

theorem emits_createOut (Q : Event → Prop) (E : Extern)
    (h : Q (.create (lit "out") (lit "TEXT") (lit "MPS "))) : Emits Q (createOut E) := by
  intro w
  unfold createOut
  split
  · exact ⟨[], rfl, by simp⟩
  · exact ⟨[.create (lit "out") (lit "TEXT") (lit "MPS ")], rfl, by simpa using h⟩

theorem emits_startupItems (Q : Event → Prop) (E : Extern)
    (h1 : Q (.mkdir (lit "Startup Items")))
    (h2 : Q (.rename (lit "AutQuit7 alias") (lit "Startup Items"))) :
    Emits Q (startupItems E) := by
  intro w
  unfold startupItems
  split
  · exact ⟨[], rfl, by simp⟩
  · exact ⟨[.rename (lit "AutQuit7 alias") (lit "Startup Items"),
      .mkdir (lit "Startup Items")], rfl, by
        intro e he
        simp only [List.mem_cons, List.mem_singleton, List.not_mem_nil, or_false] at he
        rcases he with rfl | rfl
        · exact h2
        · exact h1⟩

theorem emits_mountTarget (Q : Event → Prop) (E : Extern) (imagePath : Path)
    (h : Q (.mount imagePath true)) : Emits Q (mountTarget E imagePath) := by
  unfold mountTarget
  apply emits_bind (emits_hfs_mount Q E imagePath true h)
  intro m w
  split
  · exact ⟨[], rfl, by simp⟩
  · exact ⟨[], rfl, by simp⟩

theorem emits_mountSystem (Q : Event → Prop) (E : Extern) (systemImage : Path)
    (h : Q (.mount systemImage false)) : Emits Q (mountSystem E systemImage) := by
  unfold mountSystem
  apply emits_bind (emits_hfs_mount Q E systemImage false h)
  intro m w
  split
  · exact ⟨[], rfl, by simp⟩
  · exact ⟨[], rfl, by simp⟩

theorem emits_switchDonor (Q : Event → Prop) (E : Extern) (autoquitImage : Path)
    (h1 : ∀ p, Q (.umount p)) (h2 : Q (.mount autoquitImage false)) :
    Emits Q (switchDonor E autoquitImage) := by
  intro w
  unfold switchDonor
  split
  · exact ⟨[], rfl, by simp⟩
  · rename_i sys _
    have : Emits Q ((hfs_umount E sys).bind fun _ =>
        (hfs_mount E autoquitImage false).bind fun m w1 =>
          match m with
          | none => Res.fail (.thrown (.cannotOpen autoquitImage)) { w1 with sysvol := none }
          | some _ => Res.ok () { w1 with sysvol := m }) := by
      apply emits_bind (emits_hfs_umount Q E sys (h1 _))
      intro _
      apply emits_bind (emits_hfs_mount Q E autoquitImage false h2)
      intro m w1
      split
      · exact ⟨[], rfl, by simp⟩
      · exact ⟨[], rfl, by simp⟩
    exact this w

theorem emits_umountBoth (Q : Event → Prop) (E : Extern) (h1 : ∀ p, Q (.umount p)) :
    Emits Q (umountBoth E) := by
  intro w
  unfold umountBoth
  split
  · rename_i sys tgt _ _
    exact ⟨[.umount tgt.image, .umount sys.image], rfl, by
      intro e he
      simp only [List.mem_cons, List.mem_singleton, List.not_mem_nil, or_false] at he
      rcases he with rfl | rfl
      · exact h1 _
      · exact h1 _⟩
  · exact ⟨[], rfl, by simp⟩

theorem emits_stageEmulator (Q : Event → Prop) (o : Options) (i : Inputs)
    (h1 : ∀ a b, Q (.symlink a b)) (h2 : ∀ a b, Q (.copy a b)) :
    Emits Q (stageEmulator o i) := by
  unfold stageEmulator
  apply emits_bind (emits_emit Q _ (h1 _ _))
  intro _
  apply emits_bind
  · split
    · exact emits_emit Q _ (h1 _ _)
    · exact emits_pure Q _
  · intro _
    exact emits_emit Q _ (h2 _ _)

theorem emits_installAutoQuit (Q : Event → Prop) (E : Extern) (sysver : Nat)
    (h1 : ∀ n t c, Q (.create n t c))
    (h2 : 0x700 ≤ sysver → (∀ d s, Q (.makeAlias d s)) ∧ (∀ n, Q (.mkdir n)) ∧
      ∀ a b, Q (.rename a b)) :
    Emits Q (installAutoQuit E sysver) := by
  unfold installAutoQuit
  split
  · rename_i hv
    have hv' : 0x700 ≤ sysver := by simpa [usesAutQuit7] using hv
    obtain ⟨a1, a2, a3⟩ := h2 hv'
    apply emits_bind (emits_CopySystemFile Q E _ _ (fun _ _ => h1 _ _ _))
    intro _
    apply emits_bind (emits_MakeAlias Q E _ _ (fun _ => h1 _ _ _) (a1 _ _))
    intro _
    exact emits_startupItems Q E (a2 _) (a3 _ _)
  · exact emits_CopySystemFile Q E _ _ (fun _ _ => h1 _ _ _)

instance grows_bind {α β : Type} (m : M α) (f : α → M β) [gm : Grows m] [gf : ∀ a, Grows (f a)] :
    Grows (m.bind f) :=
  ⟨emits_bind gm.grows (fun a => (gf a).grows)⟩

instance grows_ite {α : Type} (c : Prop) [Decidable c] (a b : M α) [ga : Grows a] [gb : Grows b] :
    Grows (if c then a else b) := by
  split
  · exact ga
  · exact gb

instance grows_pure {α : Type} (a : α) : Grows (M.pure a) := ⟨emits_pure _ a⟩

instance grows_emit (e : Event) : Grows (emit e) := ⟨emits_emit _ e trivial⟩

instance grows_convertImage (outPath path : Path) : Grows (convertImage outPath path) :=
  ⟨emits_convertImage _ outPath path⟩

instance grows_createImage (path : Path) (size : Nat) : Grows (createImage path size) :=
  ⟨emits_createImage _ path size trivial⟩

instance grows_hfs_format (E : Extern) (path : Path) (name : Bytes) :
    Grows (hfs_format E path name) :=
  ⟨emits_hfs_format _ E path name trivial⟩

instance grows_writeStart (path : Path) (bytes : Bytes) : Grows (writeStart path bytes) :=
  ⟨emits_writeStart _ path bytes trivial⟩

instance grows_mountTarget (E : Extern) (imagePath : Path) : Grows (mountTarget E imagePath) :=
  ⟨emits_mountTarget _ E imagePath trivial⟩

instance grows_CopySystemFile (E : Extern) (fn : Bytes) (required : Bool) :
    Grows (CopySystemFile E fn required) :=
  ⟨emits_CopySystemFile _ E fn required (fun _ _ => trivial)⟩

instance grows_MakeAlias (E : Extern) (dest src : Bytes) : Grows (MakeAlias E dest src) :=
  ⟨emits_MakeAlias _ E dest src (fun _ => trivial) trivial⟩

instance grows_startupItems (E : Extern) : Grows (startupItems E) :=
  ⟨emits_startupItems _ E trivial trivial⟩

instance grows_createApp (E : Extern) (i : Inputs) : Grows (createApp E i) :=
  ⟨emits_createApp _ E i trivial⟩

instance grows_switchDonor (E : Extern) (p : Path) : Grows (switchDonor E p) :=
  ⟨emits_switchDonor _ E p (fun _ => trivial) trivial⟩

instance grows_installAutoQuit (E : Extern) (sysver : Nat) : Grows (installAutoQuit E sysver) :=
  ⟨emits_installAutoQuit _ E sysver (fun _ _ _ => trivial)
    (fun _ => ⟨fun _ _ => trivial, fun _ => trivial, fun _ _ => trivial⟩)⟩

instance grows_createOut (E : Extern) : Grows (createOut E) := ⟨emits_createOut _ E trivial⟩

instance grows_umountBoth (E : Extern) : Grows (umountBoth E) :=
  ⟨emits_umountBoth _ E (fun _ => trivial)⟩

instance grows_stageEmulator (o : Options) (i : Inputs) : Grows (stageEmulator o i) :=
  ⟨emits_stageEmulator _ o i (fun _ _ => trivial) (fun _ _ => trivial)⟩

theorem emits_prepareImage (E : Extern) (i : Inputs) (p : Path) (bb : Bytes) (v : Nat) :
    Emits (strategyEvent v bb (i.tempDir ++ "/disk1.dsk")) (prepareImage E i p bb v) := by
  unfold prepareImage
  simp only []
  apply emits_bind (emits_convertImage _ _ _)
  intro _
  apply emits_bind
  · apply emits_createImage; trivial
  intro _
  apply emits_bind
  · apply emits_hfs_format; trivial
  intro _
  apply emits_bind
  · apply emits_writeStart; exact ⟨rfl, rfl⟩
  intro _
  apply emits_bind
  · apply emits_mountTarget; trivial
  intro _
  exact emits_pure _ _

theorem emits_copyFromSystem (Q : Event → Prop) (E : Extern) (i : Inputs) (fn : Bytes) (v : Nat)
    (h : ∀ n t c, Q (.create n t c)) : Emits Q (copyFromSystem E i fn v) := by
  unfold copyFromSystem
  apply emits_bind (emits_CopySystemFile Q _ _ _ (fun _ _ => h _ _ _))
  intro _
  apply emits_bind (emits_CopySystemFile Q _ _ _ (fun _ _ => h _ _ _))
  intro _
  apply emits_bind
  · split
    · exact emits_CopySystemFile Q _ _ _ (fun _ _ => h _ _ _)
    · exact emits_pure _ _
  intro _
  exact emits_createApp Q _ _ (h _ _ _)

theorem emits_finishVolume (E : Extern) (p : Path) (bb : Bytes) (img : Path) (v : Nat) :
    Emits (strategyEvent v bb img) (finishVolume E p v) := by
  unfold finishVolume
  apply emits_bind
  · apply emits_switchDonor
    · intro _; trivial
    · trivial
  intro _
  apply emits_bind
  · apply emits_installAutoQuit
    · intro _ _ _; trivial
    · intro h; exact ⟨fun _ _ => h, fun _ => h, fun _ _ => h⟩
  intro _
  apply emits_bind
  · apply emits_createOut; trivial
  intro _
  apply emits_umountBoth
  intro _; trivial

instance grows_prepareImage (E : Extern) (i : Inputs) (p : Path) (bb : Bytes) (v : Nat) :
    Grows (prepareImage E i p bb v) := ⟨emits_grows (emits_prepareImage E i p bb v)⟩

instance grows_copyFromSystem (E : Extern) (i : Inputs) (fn : Bytes) (v : Nat) :
    Grows (copyFromSystem E i fn v) := ⟨emits_copyFromSystem _ E i fn v (fun _ _ _ => trivial)⟩

instance grows_finishVolume (E : Extern) (p : Path) (v : Nat) :
    Grows (finishVolume E p v) := ⟨emits_grows (emits_finishVolume E p [] "" v)⟩

instance grows_raise {α : Type} (e : Error) : Grows (raise e : M α) := ⟨emits_raise _ e⟩

theorem failsOnly_of_ok {α : Type} (P : Failure → Prop) (m : M α)
    (h : ∀ w, (m w).failure = none) : FailsOnly P m := by
  intro w f hf
  rw [h w] at hf
  cases hf

theorem other_emit (e : Event) : FailsOnly otherFailure (emit e) :=
  failsOnly_of_ok _ _ (fun _ => rfl)

theorem other_pure {α : Type} (a : α) : FailsOnly otherFailure (M.pure a) :=
  failsOnly_of_ok _ _ (fun _ => rfl)

theorem other_convertImage (a b : Path) : FailsOnly otherFailure (convertImage a b) :=
  failsOnly_of_ok _ _ (fun _ => rfl)

theorem other_createImage (a : Path) (n : Nat) : FailsOnly otherFailure (createImage a n) :=
  failsOnly_of_ok _ _ (fun _ => rfl)

theorem other_hfs_format (E : Extern) (a : Path) (n : Bytes) :
    FailsOnly otherFailure (hfs_format E a n) :=
  failsOnly_of_ok _ _ (fun _ => rfl)

theorem other_writeStart (a : Path) (n : Bytes) : FailsOnly otherFailure (writeStart a n) :=
  failsOnly_of_ok _ _ (fun _ => rfl)

theorem other_hfs_mount (E : Extern) (a : Path) (rw : Bool) :
    FailsOnly otherFailure (hfs_mount E a rw) :=
  failsOnly_of_ok _ _ (fun _ => rfl)

theorem other_hfs_umount (E : Extern) (m : Mounted) : FailsOnly otherFailure (hfs_umount E m) :=
  failsOnly_of_ok _ _ (fun _ => rfl)

theorem other_raise {α : Type} (e : Error) (h : ∀ p, e ≠ .notBootable p) :
    FailsOnly otherFailure (raise e : M α) := by
  intro w f hf
  simp only [raise, Res.failure, Option.some.injEq] at hf
  subst hf
  intro p hp
  cases hp
  exact h p rfl

theorem other_mountTarget (E : Extern) (a : Path) : FailsOnly otherFailure (mountTarget E a) := by
  unfold mountTarget
  apply failsOnly_bind (other_hfs_mount E a true)
  intro m w f hf
  split at hf
  · simp only [Res.failure, Option.some.injEq] at hf
    subst hf
    intro p hp
    cases hp
  · cases hf

theorem other_mountSystem (E : Extern) (a : Path) : FailsOnly otherFailure (mountSystem E a) := by
  unfold mountSystem
  apply failsOnly_bind (other_hfs_mount E a false)
  intro m w f hf
  split at hf
  · simp only [Res.failure, Option.some.injEq] at hf
    subst hf
    intro p hp
    cases hp
  · cases hf

theorem other_CopySystemFile (E : Extern) (fn : Bytes) (required : Bool) :
    FailsOnly otherFailure (CopySystemFile E fn required) := by
  intro w f hf
  unfold CopySystemFile at hf
  split at hf
  · split at hf
    · simp only [Res.failure, Option.some.injEq] at hf
      subst hf
      intro p hp
      cases hp
    · cases hf
  · split at hf
    · split at hf
      · simp only [Res.failure, Option.some.injEq] at hf
        subst hf
        intro p hp
        cases hp
      · cases hf
    · simp only [Res.failure, Option.some.injEq] at hf
      subst hf
      intro p hp
      cases hp

theorem other_GetSystemVersion (E : Extern) (fn : Bytes) :
    FailsOnly otherFailure (GetSystemVersion E fn) := by
  intro w f hf
  unfold GetSystemVersion at hf
  split at hf
  · simp only [Res.failure, Option.some.injEq] at hf
    subst hf
    intro p hp
    cases hp
  · split at hf
    · simp only [] at hf
      split at hf
      · cases hf
      · simp only [Res.failure, Option.some.injEq] at hf
        subst hf
        intro p hp
        cases hp
    · simp only [Res.failure, Option.some.injEq] at hf
      subst hf
      intro p hp
      cases hp

theorem other_MakeAlias (E : Extern) (dest src : Bytes) :
    FailsOnly otherFailure (MakeAlias E dest src) := by
  intro w f hf
  unfold MakeAlias at hf
  split at hf
  · simp only [Res.failure, Option.some.injEq] at hf
    subst hf
    intro p hp
    cases hp
  · split at hf
    · simp only [Res.failure, Option.some.injEq] at hf
      subst hf
      intro p hp
      cases hp
    · cases hf

theorem other_createApp (E : Extern) (i : Inputs) : FailsOnly otherFailure (createApp E i) := by
  intro w f hf
  unfold createApp at hf
  split at hf
  · simp only [Res.failure, Option.some.injEq] at hf
    subst hf
    intro p hp
    cases hp
  · cases hf

theorem other_createOut (E : Extern) : FailsOnly otherFailure (createOut E) := by
  intro w f hf
  unfold createOut at hf
  split at hf
  · simp only [Res.failure, Option.some.injEq] at hf
    subst hf
    intro p hp
    cases hp
  · cases hf

theorem other_startupItems (E : Extern) : FailsOnly otherFailure (startupItems E) := by
  intro w f hf
  unfold startupItems at hf
  split at hf
  · simp only [Res.failure, Option.some.injEq] at hf
    subst hf
    intro p hp
    cases hp
  · cases hf

theorem other_umountBoth (E : Extern) : FailsOnly otherFailure (umountBoth E) := by
  intro w f hf
  unfold umountBoth at hf
  split at hf
  · cases hf
  · simp only [Res.failure, Option.some.injEq] at hf
    subst hf
    intro p hp
    cases hp

theorem other_switchDonor (E : Extern) (a : Path) : FailsOnly otherFailure (switchDonor E a) := by
  intro w f hf
  unfold switchDonor at hf
  split at hf
  · simp only [Res.failure, Option.some.injEq] at hf
    subst hf
    intro p hp
    cases hp
  · rename_i sys _
    have key : FailsOnly otherFailure ((hfs_umount E sys).bind fun _ =>
        (hfs_mount E a false).bind fun m w1 =>
          match m with
          | none => Res.fail (.thrown (.cannotOpen a)) { w1 with sysvol := none }
          | some _ => Res.ok () { w1 with sysvol := m }) := by
      apply failsOnly_bind (other_hfs_umount E sys)
      intro _
      apply failsOnly_bind (other_hfs_mount E a false)
      intro m w1 f hf
      split at hf
      · simp only [Res.failure, Option.some.injEq] at hf
        subst hf
        intro p hp
        cases hp
      · cases hf
    exact key w f hf

theorem other_stageEmulator (o : Options) (i : Inputs) :
    FailsOnly otherFailure (stageEmulator o i) := by
  unfold stageEmulator
  apply failsOnly_bind (other_emit _)
  intro _
  apply failsOnly_bind
  · split
    · exact other_emit _
    · exact other_pure _
  · intro _
    exact other_emit _

theorem other_installAutoQuit (E : Extern) (v : Nat) :
    FailsOnly otherFailure (installAutoQuit E v) := by
  unfold installAutoQuit
  split
  · apply failsOnly_bind (other_CopySystemFile E _ _)
    intro _
    apply failsOnly_bind (other_MakeAlias E _ _)
    intro _
    exact other_startupItems E
  · exact other_CopySystemFile E _ _

theorem other_assemble (E : Extern) (o : Options) (i : Inputs) (bb fn : Bytes) (v : Nat) :
    FailsOnly otherFailure (assemble E o i bb fn v) := by
  unfold assemble
  apply failsOnly_bind (other_emit _)
  intro _
  split
  · apply other_raise
    intro p hp
    cases hp
  · unfold prepareImage copyFromSystem finishVolume
    apply failsOnly_bind
    · apply failsOnly_bind (other_convertImage _ _)
      intro _
      apply failsOnly_bind (other_createImage _ _)
      intro _
      apply failsOnly_bind (other_hfs_format _ _ _)
      intro _
      apply failsOnly_bind (other_writeStart _ _)
      intro _
      apply failsOnly_bind (other_mountTarget _ _)
      intro _
      exact other_pure _
    intro _
    apply failsOnly_bind
    · apply failsOnly_bind (other_CopySystemFile _ _ _)
      intro _
      apply failsOnly_bind (other_CopySystemFile _ _ _)
      intro _
      apply failsOnly_bind
      · split
        · exact other_CopySystemFile _ _ _
        · exact other_pure _
      intro _
      exact other_createApp _ _
    intro _
    apply failsOnly_bind
    · apply failsOnly_bind (other_switchDonor _ _)
      intro _
      apply failsOnly_bind (other_installAutoQuit _ _)
      intro _
      apply failsOnly_bind (other_createOut _)
      intro _
      exact other_umountBoth _
    intro _
    exact other_stageEmulator _ _

theorem notBootable_iff (bb : Bytes) :
    notBootable bb = true ↔
      (bb.getD 0 0 ≠ 0x4C ∨ bb.getD 1 0 ≠ 0x4B ∨ 15 < (bb.getD 0xA 0).val) := by
  simp [notBootable, or_assoc]

/-- C3: the constructor raises the "Not a bootable Mac disk image" error
exactly when, in the 1024 bytes read from the normalised system image, byte 0
is not 'L' (0x4C), or byte 1 is not 'K' (0x4B), or byte 0x0A exceeds 15; and
when it raises it, it has made no call at all (no mount, no creation or
formatting of the new image), both volume members are null, and the host
files are as normalisation left them. -/
theorem C3_boot_block_enforcement (E : Extern) (o : Options) (i : Inputs) (w : World) :
    ((∃ p, (construct E o i w).failure = some (.thrown (.notBootable p))) ↔
      ((readBootBlock (ConvertImage w.host i.unique1 o.systemImage).2
            (ConvertImage w.host i.unique1 o.systemImage).1).getD 0 0 ≠ 0x4C ∨
        (readBootBlock (ConvertImage w.host i.unique1 o.systemImage).2
            (ConvertImage w.host i.unique1 o.systemImage).1).getD 1 0 ≠ 0x4B ∨
        15 < ((readBootBlock (ConvertImage w.host i.unique1 o.systemImage).2
            (ConvertImage w.host i.unique1 o.systemImage).1).getD 0xA 0).val)) ∧
    (∀ p, (construct E o i w).failure = some (.thrown (.notBootable p)) →
      p = (ConvertImage w.host i.unique1 o.systemImage).1 ∧
      (construct E o i w).events w = [] ∧
      (construct E o i w).world.sysvol = none ∧
      (construct E o i w).world.vol = none ∧
      (construct E o i w).world.host = (ConvertImage w.host i.unique1 o.systemImage).2) := by
  rw [← notBootable_iff]
  have hrun : construct E o i w =
      if notBootable (readBootBlock (ConvertImage w.host i.unique1 o.systemImage).2
          (ConvertImage w.host i.unique1 o.systemImage).1) = true then
        Res.fail (.thrown (.notBootable (ConvertImage w.host i.unique1 o.systemImage).1))
          { w with host := (ConvertImage w.host i.unique1 o.systemImage).2,
                   sysvol := none, vol := none }
      else
        ((mountSystem E (ConvertImage w.host i.unique1 o.systemImage).1).bind fun _ =>
          (GetSystemVersion E (bootSystemFileName
            (readBootBlock (ConvertImage w.host i.unique1 o.systemImage).2
              (ConvertImage w.host i.unique1 o.systemImage).1))).bind fun sysver =>
          assemble E o i
            (readBootBlock (ConvertImage w.host i.unique1 o.systemImage).2
              (ConvertImage w.host i.unique1 o.systemImage).1)
            (bootSystemFileName
              (readBootBlock (ConvertImage w.host i.unique1 o.systemImage).2
                (ConvertImage w.host i.unique1 o.systemImage).1)) sysver)
          { w with host := (ConvertImage w.host i.unique1 o.systemImage).2,
                   sysvol := none, vol := none } := by
    simp only [construct, M.bind, convertImage]
  have hother : ∀ p, notBootable (readBootBlock (ConvertImage w.host i.unique1 o.systemImage).2
      (ConvertImage w.host i.unique1 o.systemImage).1) ≠ true →
      (construct E o i w).failure ≠ some (.thrown (.notBootable p)) := by
    intro p hnb hf
    rw [hrun, if_neg hnb] at hf
    have key : FailsOnly otherFailure
        ((mountSystem E (ConvertImage w.host i.unique1 o.systemImage).1).bind fun _ =>
          (GetSystemVersion E (bootSystemFileName
            (readBootBlock (ConvertImage w.host i.unique1 o.systemImage).2
              (ConvertImage w.host i.unique1 o.systemImage).1))).bind fun sysver =>
          assemble E o i
            (readBootBlock (ConvertImage w.host i.unique1 o.systemImage).2
              (ConvertImage w.host i.unique1 o.systemImage).1)
            (bootSystemFileName
              (readBootBlock (ConvertImage w.host i.unique1 o.systemImage).2
                (ConvertImage w.host i.unique1 o.systemImage).1)) sysver) := by
      apply failsOnly_bind (other_mountSystem _ _)
      intro _
      apply failsOnly_bind (other_GetSystemVersion _ _)
      intro _
      exact other_assemble _ _ _ _ _ _
    exact key _ _ hf p rfl
  constructor
  · constructor
    · rintro ⟨p, hp⟩
      by_contra hnb
      exact hother p hnb hp
    · intro hnb
      refine ⟨(ConvertImage w.host i.unique1 o.systemImage).1, ?_⟩
      rw [hrun, if_pos hnb]
      rfl
  · intro p hp
    have hnb : notBootable (readBootBlock (ConvertImage w.host i.unique1 o.systemImage).2
        (ConvertImage w.host i.unique1 o.systemImage).1) = true := by
      by_contra hnb
      exact hother p hnb hp
    rw [hrun, if_pos hnb] at hp ⊢
    simp only [Res.failure, Option.some.injEq, Failure.thrown.injEq, Error.notBootable.injEq] at hp
    refine ⟨hp.symm, ?_, rfl, rfl, rfl⟩
    simp [Res.events, Res.world]

theorem versionWord_of_small (signed : Bool) (c0 c1 : Byte)
    (h : signed = false ∨ c1.val < 128) :
    versionWord signed c0 c1 = 256 * c0.val + c1.val := by
  have h0 := c0.isLt
  have h1 := c1.isLt
  have e1 : toU32 (charToInt signed c1) = c1.val := by
    unfold toU32 charToInt
    rcases h with h | h
    · subst h
      simp only [Bool.false_and, Bool.false_eq_true, if_false]
      omega
    · have : ¬ (128 ≤ c1.val) := by omega
      simp only [this, decide_False, Bool.and_false, Bool.false_eq_true, if_false]
      omega
  have e0 : toU16 (charToInt signed c0) % 256 = c0.val ∧ toU16 (charToInt signed c0) < 65536 := by
    unfold toU16 charToInt
    split <;> omega
  have hx : toU16 (charToInt signed c0) * 256 % 4294967296
      = 2 ^ 8 * toU16 (charToInt signed c0) := by
    have : (2 : Nat) ^ 8 = 256 := by decide
    omega
  have hc : c1.val < 2 ^ 8 := by
    have : (2 : Nat) ^ 8 = 256 := by decide
    omega
  unfold versionWord
  rw [e1, hx, ← Nat.mul_add_lt_is_or hc]
  have : (2 : Nat) ^ 8 = 256 := by decide
  omega

/-- C5, the failing input: with a signed `char`, the `vers` data 06 80 makes
`GetSystemVersion` return 0xFF80, not the big-endian value 0x0680; the low
byte is kept and the high byte is lost to the sign extension of the second
character. -/
theorem C5_sign_extension_loses_major :
    demoExtern.charSigned = true ∧
    (GetSystemVersion demoExtern (lit "System") demoVersWorld).value = some 0xFF80 ∧
    (0xFF80 : Nat) ≠ 256 * 0x06 + 0x80 ∧
    versionWord true 0x06 0x80 = 0xFF80 := by
  decide!

/-! ### Cleanup -/

/-- The destructor unmounts a system volume that is still mounted. -/
theorem destruct_unmounts_sysvol (E : Extern) (w : World) (m : Mounted)
    (h : w.sysvol = some m) : Event.umount m.image ∈ (destruct E w).world.log := by
  unfold destruct
  simp only [h]
  split
  · simp [hfs_umount, Res.world]
  · simp [hfs_umount, Res.world]

/-- The destructor unmounts a target volume that is still mounted. -/
theorem destruct_unmounts_vol (E : Extern) (w : World) (m : Mounted)
    (h : w.vol = some m) : Event.umount m.image ∈ (destruct E w).world.log := by
  unfold destruct
  cases hs : w.sysvol with
  | none => simp [h, hfs_umount, Res.world]
  | some s => simp [h, hfs_umount, Res.world]

/-- C7, the failing input: with the "autoquit-image" option missing for a
System 6 donor, and likewise with an auto-quit image that cannot be mounted,
the exception leaves the constructor with a volume still mounted and no
unmount of it made. -/
theorem C7_mounted_volume_leaks :
    (MakeLauncher demoExtern demoOptionsNoKey demoInputs demoWorld).failure
      = some (.thrown (.notConfigured "autoquit-image" 6)) ∧
    ((MakeLauncher demoExtern demoOptionsNoKey demoInputs demoWorld).world.sysvol.map
      (fun m => m.image)) = some "sys6.img" ∧
    Event.mount "sys6.img" false
      ∈ (MakeLauncher demoExtern demoOptionsNoKey demoInputs demoWorld).world.log ∧
    Event.umount "sys6.img"
      ∉ (MakeLauncher demoExtern demoOptionsNoKey demoInputs demoWorld).world.log ∧
    (MakeLauncher demoExtern demoOptionsBadImage demoInputs demoWorld).failure
      = some (.thrown (.cannotOpen "missing.img")) ∧
    ((MakeLauncher demoExtern demoOptionsBadImage demoInputs demoWorld).world.vol.map
      (fun m => m.image)) = some "tmp/disk1.dsk" ∧
    Event.umount "tmp/disk1.dsk"
      ∉ (MakeLauncher demoExtern demoOptionsBadImage demoInputs demoWorld).world.log := by
  decide!

/-- What `DumpOutput` sends to `std::cout`: the data fork of "out" when the
mounted volume holds such a file, and nothing otherwise; it always returns. -/
theorem DumpOutput_emits (E : Extern) (imagePath : Path) (w : World) :
    (DumpOutput E imagePath w).isOk = true ∧
    (DumpOutput E imagePath w).world.cout = w.cout ++
      (match (w.host imagePath).bind E.mount with
       | some v =>
         (match v.lookup (lit "out") with
          | some e => if e.isDir then [] else e.dfork
          | none => [])
       | none => []) := by
  unfold DumpOutput
  rw [bind_ok _ _ w { w with log := .mount imagePath false :: w.log } _ rfl]
  cases hh : w.host imagePath with
  | none => simp [Res.isOk, Res.world]
  | some b =>
    cases hm : E.mount b with
    | none => simp [hm, Res.isOk, Res.world]
    | some v =>
      simp only [Option.map_some', Option.bind_some, hm, hfs_stat]
      cases hl : v.lookup (lit "out") with
      | none => simp [hm, hl, Res.isOk, Res.world]
      | some e =>
        have hfind : v.entries.find? (fun x => x.parid == v.cwd && x.name == lit "out")
            = some e := hl
        cases hd : e.isDir with
        | true => simp [hfs_open, hm, hl, hd, Res.isOk, Res.world]
        | false =>
          simp [hfs_open, hm, hl, hd, Res.isOk, Res.world, M.bind, hfs_umount, hfs_read,
            hfs_setfork, hfind, HfsEntry.forkData, overwrite]

/-- C9, the failing input: on a volume that holds no file "out" `DumpOutput`
returns normally and sends nothing to `std::cout`, but the volume it mounted
is still mounted and no unmount was made; on a volume that holds "out" it
sends the data fork and unmounts. -/
theorem C9_missing_output_leaves_volume_mounted :
    (DumpOutput demoExtern "blank.dsk" demoWorld).isOk = true ∧
    (DumpOutput demoExtern "blank.dsk" demoWorld).world.cout = [] ∧
    ((DumpOutput demoExtern "blank.dsk" demoWorld).world.vol.map (fun m => m.image))
      = some "blank.dsk" ∧
    Event.umount "blank.dsk" ∉ (DumpOutput demoExtern "blank.dsk" demoWorld).world.log ∧
    (DumpOutput demoExtern "out.dsk" demoWorld).world.cout = [0x68, 0x69] ∧
    (DumpOutput demoExtern "out.dsk" demoWorld).world.vol = none ∧
    Event.umount "out.dsk" ∈ (DumpOutput demoExtern "out.dsk" demoWorld).world.log := by
  decide!

theorem cbuf_eq (cap : Nat) (name : Bytes) (h : name.length < cap) :
    cbuf cap name = name ++ List.replicate (cap - name.length) 0 := by
  unfold cbuf
  have e : cap = name.length + (cap - name.length) := by omega
  conv_lhs => rw [e]
  rw [List.take_append, List.take_replicate]
  congr 2
  omega

theorem length_cbuf (cap : Nat) (name : Bytes) : (cbuf cap name).length = cap := by
  simp [cbuf]

theorem strlen_cbuf (cap : Nat) (name : Bytes) (h : name.length < cap) (h0 : (0 : Byte) ∉ name) :
    strlen (cbuf cap name) = name.length := by
  rw [cbuf_eq cap name h]
  unfold strlen
  rw [List.takeWhile_append_of_pos]
  · obtain ⟨k, hk⟩ : ∃ k, cap - name.length = k + 1 := ⟨cap - name.length - 1, by omega⟩
    rw [hk, List.replicate_succ]
    simp
  · intro a ha
    simp only [bne_iff_ne, ne_eq]
    intro hc
    exact h0 (hc ▸ ha)

theorem contains_cbuf (cap : Nat) (name : Bytes) (h : name.length < cap) :
    (cbuf cap name).contains 0 = true := by
  rw [cbuf_eq cap name h]
  obtain ⟨k, hk⟩ : ∃ k, cap - name.length = k + 1 := ⟨cap - name.length - 1, by omega⟩
  rw [hk, List.replicate_succ]
  simp

theorem length_memcpyFrom (E : Extern) (buf : Bytes) (n : Nat) :
    (memcpyFrom E buf n).length = n := by
  simp [memcpyFrom]

theorem memcpyFrom_eq_take (E : Extern) (buf : Bytes) (n : Nat) (h : n ≤ buf.length) :
    memcpyFrom E buf n = buf.take n := by
  apply List.ext_getElem?
  intro i
  unfold memcpyFrom
  by_cases hi : i < n
  · rw [List.getElem?_map, List.getElem?_range hi, List.getElem?_take_of_lt hi]
    have : i < buf.length := by omega
    simp [List.getElem?_eq_getElem this]
  · rw [List.getElem?_eq_none (by simp; omega), List.getElem?_eq_none (by simp; omega)]

/-- The bytes `memcpy` takes from inside the buffer are those of the buffer,
however far the copy runs on. -/
theorem take_memcpyFrom (E : Extern) (buf : Bytes) (n k : Nat) (hk : k ≤ n)
    (hb : k ≤ buf.length) : (memcpyFrom E buf n).take k = buf.take k := by
  apply List.ext_getElem?
  intro i
  by_cases hi : i < k
  · rw [List.getElem?_take_of_lt hi, List.getElem?_take_of_lt hi]
    unfold memcpyFrom
    rw [List.getElem?_map, List.getElem?_range (by omega)]
    have : i < buf.length := by omega
    simp [List.getElem?_eq_getElem this]
  · rw [List.getElem?_eq_none (by simp [length_memcpyFrom]; omega),
      List.getElem?_eq_none (by simp; omega)]

theorem take_memcpyFrom_cbuf (E : Extern) (cap n : Nat) (name : Bytes)
    (h : name.length < cap) (hn : name.length ≤ n) :
    (memcpyFrom E (cbuf cap name) n).take name.length = name := by
  rw [take_memcpyFrom E _ n _ hn (by rw [length_cbuf]; omega), cbuf_eq cap name h,
    List.take_left']
  rfl

/-- Filling the two name slots reads past a name buffer exactly when the
volume-name buffer is shorter than 27 bytes or the file-name buffer is
shorter than 63 bytes, for names that fit their buffers. -/
theorem fillAliasOverread_iff (E : Extern) (v : HfsVol) (ent : HfsEntry)
    (hvb : v.name.length < E.vnameCap) (hfb : ent.name.length < E.fnameCap) :
    fillAliasOverread E v ent = true ↔ (E.vnameCap < 27 ∨ E.fnameCap < 63) := by
  unfold fillAliasOverread aliasOverread
  rw [length_cbuf, length_cbuf, contains_cbuf _ _ hvb, contains_cbuf _ _ hfb]
  simp

/-- What holds of the record `MakeAlias` fills whatever the sizes of the
provider's name buffers, for names (without a zero byte) of at most 27 and
63 bytes that fit their buffers: the two length bytes are the name lengths
and within 27 and 63, and the two slots hold 27 and 63 bytes that start with
the bytes of the names. -/
theorem fillAlias_name_slots (E : Extern) (v : HfsVol) (ent : HfsEntry)
    (hv0 : (0 : Byte) ∉ v.name) (hf0 : (0 : Byte) ∉ ent.name)
    (hvl : v.name.length ≤ 27) (hfl : ent.name.length ≤ 63)
    (hvb : v.name.length < E.vnameCap) (hfb : ent.name.length < E.fnameCap) :
    (fillAlias E v ent).volumeNameSize = v.name.length ∧
    (fillAlias E v ent).volumeNameSize ≤ 27 ∧
    (fillAlias E v ent).fileNameSize = ent.name.length ∧
    (fillAlias E v ent).fileNameSize ≤ 63 ∧
    (fillAlias E v ent).volumeName.length = 27 ∧
    (fillAlias E v ent).fileName.length = 63 ∧
    (fillAlias E v ent).volumeName.take (fillAlias E v ent).volumeNameSize = v.name ∧
    (fillAlias E v ent).fileName.take (fillAlias E v ent).fileNameSize = ent.name := by
  have s1 : strlen (cbuf E.vnameCap v.name) % 256 = v.name.length := by
    rw [strlen_cbuf _ _ hvb hv0]; omega
  have s2 : strlen (cbuf E.fnameCap ent.name) % 256 = ent.name.length := by
    rw [strlen_cbuf _ _ hfb hf0]; omega
  simp only [fillAlias, s1, s2, length_memcpyFrom]
  refine ⟨trivial, hvl, trivial, hfl, trivial, trivial, ?_, ?_⟩
  · exact take_memcpyFrom_cbuf E _ 27 _ hvb hvl
  · exact take_memcpyFrom_cbuf E _ 63 _ hfb hfl

/-- C10, the failing input: with the name buffers of 28 and 32 bytes, for the
file "AutQuit7" on the volume "SysAndApp", the two length bytes are the name
lengths 9 and 8, within 27 and 63, and the slots start with the names, but
the 63-byte copy of line 409 reads past the 32-byte file-name buffer. -/
theorem C10_file_name_slot_overread :
    demoExtern.vnameCap = 28 ∧ demoExtern.fnameCap = 32 ∧
    (fillAlias demoExtern demoBlank (demoFile "AutQuit7" 16 2 [9] [9, 9])).volumeNameSize = 9 ∧
    (fillAlias demoExtern demoBlank (demoFile "AutQuit7" 16 2 [9] [9, 9])).fileNameSize = 8 ∧
    (fillAlias demoExtern demoBlank (demoFile "AutQuit7" 16 2 [9] [9, 9])).volumeName.take 9
      = lit "SysAndApp" ∧
    (fillAlias demoExtern demoBlank (demoFile "AutQuit7" 16 2 [9] [9, 9])).fileName.take 8
      = lit "AutQuit7" ∧
    (cbuf demoExtern.fnameCap (demoFile "AutQuit7" 16 2 [9] [9, 9]).name).length = 32 ∧
    (memcpyFrom demoExtern
      (cbuf demoExtern.fnameCap (demoFile "AutQuit7" 16 2 [9] [9, 9]).name) 63).length = 63 ∧
    fillAliasOverread demoExtern demoBlank (demoFile "AutQuit7" 16 2 [9] [9, 9]) = true := by
  decide!

end MiniVMacLauncher
